import Mathlib

/-
Verification of the reasoning-workflow core of the sql-indexing backend.

Shallow embedding of the agent workflow (understand / retrieve / enrich /
search-values / generate nodes, SQL extraction, retry routing) and of the
RAG tools (categorical value search, fuzzy matching, cosine similarity,
query executor retry loop, CSV serialization), together with theorems
settling the specification's claims about them.

Strings are modelled as `List Char` internally (Python `str`); external
collaborators (completion service, vector store, metadata store, live
database) are modelled as oracle parameters, since the embedded code only
consumes their returned values.
-/

/-! ### Character and string utilities (Python semantics, ASCII fragment) -/

/-- Python `\s` / `str.strip` whitespace, ASCII fragment. -/
def isPySpace (c : Char) : Bool :=
  c = ' ' || c = '\t' || c = '\n' || c = '\r' || c = '\x0b' || c = '\x0c'

/-- Python `str.lower` (ASCII fragment). -/
def pyLowerL (l : List Char) : List Char := l.map Char.toLower

/-- Does `hay` start with `needle`? -/
def startsWithL : List Char → List Char → Bool
  | _, [] => true
  | [], _ :: _ => false
  | c :: cs, d :: ds => c = d && startsWithL cs ds

/-- Python `needle in hay` substring test (true for the empty needle). -/
def containsL : List Char → List Char → Bool
  | [], needle => needle.isEmpty
  | c :: rest, needle => startsWithL (c :: rest) needle || containsL rest needle

/-- Case-insensitive `startsWithL` (regex `re.IGNORECASE` on ASCII). -/
def ciStartsWithL (hay needle : List Char) : Bool :=
  startsWithL (pyLowerL hay) (pyLowerL needle)

/-- Python `str.strip()` (ASCII whitespace). -/
def stripL (l : List Char) : List Char :=
  ((l.dropWhile isPySpace).reverse.dropWhile isPySpace).reverse

/-- Helper for `pyWordCountL`: count words, tracking whether we are inside one. -/
def wordCountAux : List Char → Bool → Nat
  | [], _ => 0
  | c :: rest, inWord =>
    if isPySpace c then wordCountAux rest false
    else (if inWord then 0 else 1) + wordCountAux rest true

/-- `len(s.split())` — number of whitespace-separated words. -/
def pyWordCountL (l : List Char) : Nat := wordCountAux l false

/-- String-level wrappers used by the embedded code. -/
def pyLower (s : String) : String := String.mk (pyLowerL s.data)

def pyStrip (s : String) : String := String.mk (stripL s.data)

def containsS (hay needle : String) : Bool := containsL hay.data needle.data

def pyWordCount (s : String) : Nat := pyWordCountL s.data

/-- Join pieces with a separator (Python `sep.join`). -/
def joinWith (sep : List Char) : List (List Char) → List Char
  | [] => []
  | [x] => x
  | x :: y :: rest => x ++ sep ++ joinWith sep (y :: rest)

example : containsS "show this" "hi" = true := by decide

example : pyWordCount "  show  this " = 2 := by decide

example : pyStrip "  a b\n" = "a b" := by decide

/-! ### Data values

Database cell values after `_serialize_value` (tools.py): `None`, strings,
or other JSON scalars/containers; `Cell.other` abstracts a non-string value
by its Python `str()` rendering, which is what `rows_to_csv` writes. -/

inductive Cell where
  | null : Cell
  | str : String → Cell
  | other : String → Cell
deriving DecidableEq

/-! ### rows_to_csv (tools.py, lines 537-556) -/

/-- Does a string value need CSV quoting? (`"," in val or '"' in val or "\n" in val`). -/
def csvNeedsQuote (s : List Char) : Bool := s.any (fun c => c = ',' || c = '"' || c = '\n')

/-- `val.replace('"', '""')`. -/
def csvDoubleQuotes : List Char → List Char
  | [] => []
  | c :: rest => (if c = '"' then ['"', '"'] else [c]) ++ csvDoubleQuotes rest

/-- Escape a single cell the way `rows_to_csv` does. -/
def csvField : Cell → List Char
  | Cell.null => []
  | Cell.str s => if csvNeedsQuote s.data then '"' :: (csvDoubleQuotes s.data ++ ['"']) else s.data
  | Cell.other r => r.data

/-- One row serialized: `",".join(escaped)`. -/
def rowLineL (row : List Cell) : List Char := joinWith [','] (row.map csvField)

/-- `rows_to_csv` body on character lists. -/
def rowsToCsvL (columns : List String) (rows : List (List Cell)) : List Char :=
  joinWith ['\n'] (joinWith [','] (columns.map String.data) :: rows.map rowLineL)

/-- `rows_to_csv(columns, rows)` from tools.py. -/
def rows_to_csv (columns : List String) (rows : List (List Cell)) : String :=
  String.mk (rowsToCsvL columns rows)

/-! ### A standard CSV reader (verification side, for the round-trip claim)

Fields are separated by commas, records by newlines; a field starting with a
double quote is quoted, embedded quotes are doubled, and newlines/commas
inside a quoted field are literal. -/

inductive CsvMode where
  | normal : CsvMode
  | quoted : CsvMode
  | closing : CsvMode
deriving DecidableEq

def parseCsvAux : List Char → CsvMode → List Char → List (List Char) → List (List (List Char))
  | [], _, field, rec => [rec ++ [field]]
  | c :: rest, CsvMode.quoted, field, rec =>
    if c = '"' then parseCsvAux rest CsvMode.closing field rec
    else parseCsvAux rest CsvMode.quoted (field ++ [c]) rec
  | c :: rest, CsvMode.closing, field, rec =>
    if c = '"' then parseCsvAux rest CsvMode.quoted (field ++ ['"']) rec
    else if c = ',' then parseCsvAux rest CsvMode.normal [] (rec ++ [field])
    else if c = '\n' then (rec ++ [field]) :: parseCsvAux rest CsvMode.normal [] []
    else parseCsvAux rest CsvMode.normal (field ++ [c]) rec
  | c :: rest, CsvMode.normal, field, rec =>
    if c = '"' && decide (field = []) then parseCsvAux rest CsvMode.quoted field rec
    else if c = ',' then parseCsvAux rest CsvMode.normal [] (rec ++ [field])
    else if c = '\n' then (rec ++ [field]) :: parseCsvAux rest CsvMode.normal [] []
    else parseCsvAux rest CsvMode.normal (field ++ [c]) rec

/-- Parse a whole CSV text into records of fields. -/
def parseCsv (s : String) : List (List String) :=
  (parseCsvAux s.data CsvMode.normal [] []).map (fun rec => rec.map String.mk)

/-- The string a text cell denotes (`None` prints as the empty field). -/
def decodedL : Cell → List Char
  | Cell.null => []
  | Cell.str s => s.data
  | Cell.other r => r.data

/-- A cell the spec's round-trip claim can cover: `None` or a string. -/
def cellIsText : Cell → Bool
  | Cell.null => true
  | Cell.str _ => true
  | Cell.other _ => false

/-! ### _fuzzy_match (tools.py, lines 366-396) -/

/-- The fixed abbreviation table of `_fuzzy_match`. -/
def abbreviations : List (String × String) :=
  [("nyc", "new york"), ("la", "los angeles"), ("sf", "san francisco"),
   ("usa", "united states"), ("uk", "united kingdom"), ("jr", "junior"),
   ("sr", "senior"), ("mgr", "manager"), ("dept", "department"),
   ("qty", "quantity"), ("amt", "amount")]

/-- `s1 in abbreviations and abbreviations[s1] in s2`. -/
def abbrevHit (s1 s2 : List Char) : Bool :=
  match abbreviations.lookup (String.mk s1) with
  | some exp => containsL s2 exp.data
  | none => false

/-- `any(s1[i:i+3] in s2 for i in range(len(s1)-2))`: do the two strings share
a 3-character substring? Scans every window of `s1` of length 3. -/
def shares3Sub : List Char → List Char → Bool
  | l, s2 =>
    match l with
    | c1 :: c2 :: c3 :: rest => containsL s2 [c1, c2, c3] || shares3Sub (c2 :: c3 :: rest) s2
    | _ => false

/-- `_fuzzy_match(s1, s2)` from tools.py (inputs already lowercased by the caller). -/
def _fuzzy_match (s1 s2 : List Char) : Bool :=
  abbrevHit s1 s2 || abbrevHit s2 s1 ||
    (decide (s1.length > 3) && decide (s2.length > 3) && shares3Sub s1 s2)

example : _fuzzy_match "nyc".data "new york city".data = true := by decide

example : _fuzzy_match "pending".data "spending spree".data = true := by decide

example : _fuzzy_match "abc".data "abc".data = false := by decide

/-! ### Python float scores

No float arithmetic happens anywhere in the embedded code: scores and
delays are constructed as decimal literals, compared, and rendered by
`repr`. They are therefore modelled exactly as decimal numbers
`mantissa / 10 ^ exponent` (e.g. `1.0` is `⟨10, 1⟩`, `0.8` is `⟨8, 1⟩`). -/

structure PyFloat where
  mantissa : Int
  exponent : Nat
deriving DecidableEq

def pow10 : Nat → Int
  | 0 => 1
  | n + 1 => 10 * pow10 n

/-- Value order on decimal floats (`a < b`). -/
def PyFloat.lt (a b : PyFloat) : Bool :=
  a.mantissa * pow10 b.exponent < b.mantissa * pow10 a.exponent

/-- Strip trailing fractional zeros, keeping at least one fractional digit
(Python float `repr` canonical form). -/
def pyFloatNorm : Int → Nat → Int × Nat
  | m, e + 2 => if m % 10 = 0 then pyFloatNorm (m / 10) (e + 1) else (m, e + 2)
  | m, e => (m, e)

/-- Python `repr` of a decimal float value (e.g. `1.0`, `0.8`, `2.0`). -/
def pyFloatRepr (f : PyFloat) : String :=
  let p := pyFloatNorm f.mantissa f.exponent
  let sign := if p.1 < 0 then "-" else ""
  let ds := (toString p.1.natAbs).data
  if p.2 = 0 then sign ++ String.mk ds ++ ".0"
  else if ds.length ≤ p.2 then
    sign ++ "0." ++ String.mk (List.replicate (p.2 - ds.length) '0' ++ ds)
  else
    sign ++ String.mk (ds.take (ds.length - p.2)) ++ "." ++ String.mk (ds.drop (ds.length - p.2))

example : pyFloatRepr ⟨10, 1⟩ = "1.0" := by decide

example : pyFloatRepr ⟨8, 1⟩ = "0.8" := by decide

example : PyFloat.lt ⟨8, 1⟩ ⟨10, 1⟩ = true := by decide

/-! ### search_by_index, categorical strategy (tools.py, lines 284-336)

The database lookup of the column's stored value list is an oracle input;
the classification, scoring, sorting and truncation logic is embedded. -/

structure ValueMatch where
  value : String
  match_type : String
  score : PyFloat
deriving DecidableEq

/-- The linear scan over the stored (JSON-decoded) categorical values:
skip `None`; mutual-containment test gives `contains`/1.0, else
`_fuzzy_match` gives `fuzzy`/0.8. Values are modelled by their `str()`. -/
def categoricalRawMatches (searchTermLower : List Char) : List (Option String) → List ValueMatch
  | [] => []
  | none :: rest => categoricalRawMatches searchTermLower rest
  | some v :: rest =>
    let valueStr := pyLowerL v.data
    if containsL valueStr searchTermLower || containsL searchTermLower valueStr then
      ⟨v, "contains", ⟨10, 1⟩⟩ :: categoricalRawMatches searchTermLower rest
    else if _fuzzy_match searchTermLower valueStr then
      ⟨v, "fuzzy", ⟨8, 1⟩⟩ :: categoricalRawMatches searchTermLower rest
    else categoricalRawMatches searchTermLower rest

/-- Stable insertion step: a new match goes after all entries with score ≥ its own. -/
def insertByScoreDesc (m : ValueMatch) : List ValueMatch → List ValueMatch
  | [] => [m]
  | x :: xs => if PyFloat.lt x.score m.score then m :: x :: xs else x :: insertByScoreDesc m xs

/-- `sorted(matches, key=lambda x: x["score"], reverse=True)`: a stable sort by
score descending (stable insertion sort; Python's stable sort computes the same
list, since a stable sort by a key is unique). -/
def sortByScoreDesc (l : List ValueMatch) : List ValueMatch :=
  l.foldl (fun acc m => insertByScoreDesc m acc) []

/-- The categorical branch of `search_by_index`: scan, sort, truncate to `limit`. -/
def search_by_index_categorical (searchTerm : String) (values : List (Option String))
    (limit : Nat) : List ValueMatch :=
  (sortByScoreDesc (categoricalRawMatches (pyLowerL searchTerm.data) values)).take limit

example : search_by_index_categorical "NYC" [some "New York", some "Boston", none] 10
    = [⟨"New York", "fuzzy", ⟨8, 1⟩⟩] := by decide

example : search_by_index_categorical "york" [some "Yorkshire", some "New York"] 10
    = [⟨"Yorkshire", "contains", ⟨10, 1⟩⟩, ⟨"New York", "contains", ⟨10, 1⟩⟩] := by decide

/-! ### _cosine_similarity (tools.py, lines 399-410), over idealized reals -/

open Classical in
/-- `_cosine_similarity(vec1, vec2)`: dot product of the zipped (truncating)
vectors over the product of Euclidean norms, guarded to 0.0 when either norm
is zero. Python floats are idealized as real numbers. -/
noncomputable def _cosine_similarity (vec1 vec2 : List ℝ) : ℝ :=
  let dot_product := ((vec1.zip vec2).map (fun p => p.1 * p.2)).sum
  let norm1 := Real.sqrt ((vec1.map (fun a => a * a)).sum)
  let norm2 := Real.sqrt ((vec2.map (fun b => b * b)).sum)
  if norm1 = 0 ∨ norm2 = 0 then 0 else dot_product / (norm1 * norm2)

/-! ### execute_sql_query (tools.py, lines 413-520)

One connection/execution attempt against the live database is an oracle
outcome; the embedded part is the bounded retry loop, its backoff schedule,
and the classification of outcomes. `connErr` covers
`asyncpg.PostgresConnectionError`/`InterfaceError` (by `str(e)`),
`timedOut` covers `asyncio.TimeoutError`, `sqlSynErr` covers
`asyncpg.PostgresSyntaxError`, `otherExc` the generic `except Exception`. -/

inductive AttemptOutcome where
  | ok (columns : List String) (rows : List (List Cell)) : AttemptOutcome
  | connErr (msg : String) : AttemptOutcome
  | timedOut (msg : String) : AttemptOutcome
  | sqlSynErr (msg : String) : AttemptOutcome
  | otherExc (msg : String) : AttemptOutcome

structure ExecReturn where
  status : String
  message : String
  columns : List String
  rows : List (List Cell)
  row_count : Nat
  truncated : Bool
deriving DecidableEq

/-- Result of a successful fetch: empty result sets short-circuit; otherwise
rows are truncated to `max_rows` and the message names the attempt number. -/
def execSuccessReturn (columns : List String) (rows : List (List Cell))
    (maxRows attemptIdx : Nat) : ExecReturn :=
  if rows = [] then
    ⟨"success", "Query executed but returned no rows", [], [], 0, false⟩
  else
    ⟨"success",
     "Returned " ++ toString (rows.take maxRows).length ++ " rows (attempt "
       ++ toString (attemptIdx + 1) ++ ")",
     columns, rows.take maxRows, rows.length, decide (rows.length > maxRows)⟩

/-- The terminal failure payload (the message always says 3 attempts). -/
def execFailReturn (lastError : Option String) : ExecReturn :=
  ⟨"error", "Query failed after 3 attempts: " ++ lastError.getD "None", [], [], 0, false⟩

structure ExecOutcome where
  result : ExecReturn
  attemptsUsed : Nat
  sleeps : List PyFloat
deriving DecidableEq

/-- The `for attempt in range(max_retries)` loop: retry (with linear backoff
`retry_delay * (attempt+1)`, `retry_delay = 1.0`) only on a connection error
whose text contains "unexpected connection_lost" or on a timeout, and only
while `attempt < max_retries - 1`; return immediately on success or on a SQL
syntax error; break (terminal failure) otherwise. -/
def execAttemptLoop (script : Nat → AttemptOutcome) (maxRows : Nat) :
    Nat → Nat → Option String → List PyFloat → ExecOutcome
  | 0, idx, lastError, sleeps => ⟨execFailReturn lastError, idx, sleeps⟩
  | fuel + 1, idx, _lastError, sleeps =>
    match script idx with
    | AttemptOutcome.ok cols rows => ⟨execSuccessReturn cols rows maxRows idx, idx + 1, sleeps⟩
    | AttemptOutcome.sqlSynErr m =>
      ⟨⟨"error", "SQL syntax error: " ++ m, [], [], 0, false⟩, idx + 1, sleeps⟩
    | AttemptOutcome.otherExc m => ⟨execFailReturn (some m), idx + 1, sleeps⟩
    | AttemptOutcome.connErr m =>
      if containsL (pyLowerL m.data) "unexpected connection_lost".data then
        if idx < 2 then
          execAttemptLoop script maxRows fuel (idx + 1) (some m) (sleeps ++ [⟨10 * ((idx : Int) + 1), 1⟩])
        else ⟨execFailReturn (some m), idx + 1, sleeps⟩
      else ⟨execFailReturn (some m), idx + 1, sleeps⟩
    | AttemptOutcome.timedOut m =>
      if idx < 2 then
        execAttemptLoop script maxRows fuel (idx + 1) (some m) (sleeps ++ [⟨10 * ((idx : Int) + 1), 1⟩])
      else ⟨execFailReturn (some m), idx + 1, sleeps⟩

/-- `execute_sql_query(sql, connection_id, max_rows)`: missing cached
connection details short-circuit; otherwise run the 3-attempt loop. -/
def execute_sql_query (detailsFound : Bool) (script : Nat → AttemptOutcome)
    (maxRows : Nat) : ExecOutcome :=
  if detailsFound then execAttemptLoop script maxRows 3 0 none []
  else ⟨⟨"error", "Connection details not found", [], [], 0, false⟩, 0, []⟩

example :
    (execute_sql_query true
      (fun i => if i = 0 then AttemptOutcome.timedOut "t" else AttemptOutcome.ok ["a"] [[Cell.str "1"]])
      100).attemptsUsed = 2 := by decide

example :
    (execute_sql_query true (fun _ => AttemptOutcome.sqlSynErr "bad") 100).result.message
      = "SQL syntax error: bad" := by decide

example :
    (execute_sql_query true (fun _ => AttemptOutcome.timedOut "t") 100).sleeps
      = [⟨10, 1⟩, ⟨20, 1⟩] := by decide

/-! ### Agent workflow data model (graph.py, lines 59-84)

`AgentState` mirrors the TypedDict. Structure fields that the embedded
nodes never consult (schema/type/key metadata on insights, etc.) are
omitted from the descriptor records. Python truthiness of optional
strings/lists is modelled explicitly. -/

structure TermInfo where
  term : String
  likely_column_type : String
deriving DecidableEq

structure RelTable where
  table_name : String
  schema_name : String
  document : Option String
  relevance_score : PyFloat
deriving DecidableEq

structure ColumnInsight where
  column_name : String
  column_summary : Option String
  indexing_strategy : Option String
deriving DecidableEq

structure TableInsight where
  table_name : String
  columns : List ColumnInsight
deriving DecidableEq

structure ResolvedEntry where
  original_term : String
  actual_value : String
  match_type : String
  score : PyFloat
deriving DecidableEq

structure AgentState where
  question : String
  connection_id : Int
  explain_mode : Bool
  intent : Option String
  searchable_terms : Option (List TermInfo)
  relevant_tables : Option (List RelTable)
  table_insights : Option (List TableInsight)
  resolved_values : Option (List (String × ResolvedEntry))
  generated_sql : Option String
  sql_attempts : Nat
  last_sql_error : Option String
  response : Option String
  sql_query : Option String
  explanation : Option String
  data : Option (List (List Cell))
  columns : Option (List String)
  error : Option String
deriving DecidableEq

/-- Python truthiness of an optional string (`None` and `""` are falsy). -/
def optStrTruthy : Option String → Bool
  | none => false
  | some s => !s.data.isEmpty

/-- `state.get(key, [])` where the stored value is `None` or a list: both
`None` and `[]` are falsy and are only ever iterated when truthy, so the
stored `None` is collapsed to `[]`. -/
def optList {α : Type} : Option (List α) → List α
  | none => []
  | some l => l

/-- `MAX_SQL_RETRIES` (graph.py, line 56). -/
def MAX_SQL_RETRIES : Nat := 3

/-- The canned greeting response (graph.py, lines 141 and 151). -/
def greetingResponse : String :=
  "Hello! I am your database assistant. How can I help you query your data today?"

/-! ### understand_node (graph.py, lines 86-161)

The completion-service call and the JSON decoding of its text are collapsed
into an outcome: `exc` when `llm_intent.invoke` (or any use of its result
outside the JSON `try`) raises, `parsedJson i t` when a JSON object was
decoded (with its optional `intent` / `searchable_terms` entries), and
`parseFail` when `json.loads` raised `JSONDecodeError`. -/

inductive UnderstandOutcome where
  | exc (msg : String) : UnderstandOutcome
  | parsedJson (intent : Option String) (terms : Option (List TermInfo)) : UnderstandOutcome
  | parseFail : UnderstandOutcome

/-- The fallback intent `f"Find data related to: {question}"`. -/
def defaultIntent (question : String) : String := "Find data related to: " ++ question

/-- The fixed greeting phrase list of the fallback path (graph.py, line 145). -/
def greetings : List String :=
  ["hello", "hi", "good morning", "good afternoon", "good evening", "hey"]

/-- The manual greeting fallback: some phrase occurs as a substring of the
lowercased question, and the question splits into at most 3 words. -/
def fallbackIsGreeting (question : String) : Bool :=
  greetings.any (fun g => containsS (pyLower question) g) && decide (pyWordCount question ≤ 3)

def understand_node (outcome : UnderstandOutcome) (s : AgentState) : AgentState :=
  match outcome with
  | UnderstandOutcome.parsedJson i t =>
    let s1 := {s with intent := some (i.getD (defaultIntent s.question)),
                      searchable_terms := some (t.getD [])}
    if s1.intent == some "GREETING" then {s1 with response := some greetingResponse} else s1
  | UnderstandOutcome.parseFail =>
    if fallbackIsGreeting s.question then
      {s with intent := some "GREETING", searchable_terms := some [],
              response := some greetingResponse}
    else
      {s with intent := some (defaultIntent s.question), searchable_terms := some []}
  | UnderstandOutcome.exc e =>
    {s with intent := some (defaultIntent s.question), searchable_terms := some [],
            error := some ("Intent parsing warning: " ++ String.mk (e.data.take 100))}

/-! ### retrieve_node (graph.py, lines 164-193) -/

structure SearchDBResult where
  status : String
  results : List RelTable
deriving DecidableEq

structure NodeResult where
  state : AgentState
  called : Bool
deriving DecidableEq

/-- `retrieve_node`, with the similarity search as an oracle on the query
text. An intent stored as `None` renders as `"None"` in the f-string. -/
def retrieve_node (search : String → SearchDBResult) (s : AgentState) : NodeResult :=
  if s.intent == some "GREETING" then ⟨s, false⟩
  else
    let intentStr := match s.intent with | some i => i | none => "None"
    let results := search (s.question ++ " " ++ intentStr)
    if results.status == "success" && !results.results.isEmpty then
      ⟨{s with relevant_tables := some results.results}, true⟩
    else
      ⟨{s with relevant_tables := some [],
               error := if optStrTruthy s.error then s.error
                        else some "No relevant tables found"}, true⟩

/-! ### enrich_node (graph.py, lines 196-223) -/

structure InsightsResult where
  status : String
  tables : List TableInsight
deriving DecidableEq

def enrich_node (getInsights : List String → InsightsResult) (s : AgentState) : NodeResult :=
  if s.intent == some "GREETING" then ⟨s, false⟩
  else
    let relevantTables := optList s.relevant_tables
    if relevantTables.isEmpty then ⟨s, false⟩
    else
      let insights := getInsights (relevantTables.map (fun t => t.table_name))
      if insights.status == "success" then
        ⟨{s with table_insights := some insights.tables}, true⟩
      else ⟨{s with table_insights := some []}, true⟩

/-! ### search_values_node (graph.py, lines 226-297)

`search_by_index` runs against the live metadata store, so it is an oracle
`table name → column name → term → parsed JSON result`. Everything else —
column qualification, scan order, the two `break`s (one after a recorded
match, one on the `term in str(resolved.values())` test), and the resolved
dictionary — is embedded. Match values are modelled as strings. -/

structure SearchIndexResult where
  status : String
  «matches» : List ValueMatch
deriving DecidableEq

/-- Python string `repr` (printable-ASCII fragment): single quotes preferred,
double quotes when the text contains a single quote but no double quote. -/
def squote : Char := Char.ofNat 39

def pyReprEscChar (q c : Char) : List Char :=
  if c = '\\' then ['\\', '\\']
  else if c = q then ['\\', q]
  else if c = '\n' then ['\\', 'n']
  else if c = '\r' then ['\\', 'r']
  else if c = '\t' then ['\\', 't']
  else [c]

def pyReprEsc (q : Char) : List Char → List Char
  | [] => []
  | c :: rest => pyReprEscChar q c ++ pyReprEsc q rest

def pyStrRepr (s : String) : String :=
  let q := if s.data.contains squote && !(s.data.contains '"') then '"' else squote
  String.mk (q :: (pyReprEsc q s.data ++ [q]))

/-- `repr` of one resolved entry (a Python dict with four keys, in insertion
order). -/
def resolvedEntryRepr (e : ResolvedEntry) : String :=
  "\x7b\x27original_term\x27: " ++ pyStrRepr e.original_term ++
    ", \x27actual_value\x27: " ++ pyStrRepr e.actual_value ++
    ", \x27match_type\x27: " ++ pyStrRepr e.match_type ++
    ", \x27score\x27: " ++ pyFloatRepr e.score ++ "\x7d"

/-- `str(resolved.values())` for the insertion-ordered resolved dict. -/
def reprResolvedValues (resolved : List (String × ResolvedEntry)) : String :=
  "dict_values([" ++
    String.intercalate ", " (resolved.map (fun p => resolvedEntryRepr p.2)) ++ "])"

/-- Python dict update: replace in place if the key exists, append otherwise. -/
def dictSet (k : String) (v : ResolvedEntry) :
    List (String × ResolvedEntry) → List (String × ResolvedEntry)
  | [] => [(k, v)]
  | (k2, v2) :: rest => if k2 == k then (k2, v) :: rest else (k2, v2) :: dictSet k v rest

/-- The `type_matches or has_categorical` qualification test for a column
(graph.py, lines 254-269). -/
def columnQualifies (likelyType : String) (col : ColumnInsight) : Bool :=
  let colName := pyLower col.column_name
  let colSummary := pyLower (col.column_summary.getD "")
  let typeMatches :=
    containsS colName likelyType || containsS colSummary likelyType ||
    (likelyType == "city" &&
      (containsS colName "city" || containsS colName "location" || containsS colName "address")) ||
    (likelyType == "status" && containsS colName "status") ||
    (likelyType == "category" &&
      (containsS colName "category" || containsS colName "type" || containsS colName "kind")) ||
    (likelyType == "name" && containsS colName "name")
  typeMatches || col.indexing_strategy == some "categorical"

/-- A value-search invocation: table name, column name, searched term. -/
abbrev ValueCall : Type := String × String × String

/-- The inner `for column in table` loop: call the oracle on each qualifying
column, record the best (first) match and break on the first success. Returns
the updated resolved dict and the calls made, in order. -/
def searchColumnsLoop (oracle : String → String → String → SearchIndexResult)
    (tableName term likelyType : String) :
    List ColumnInsight → List (String × ResolvedEntry) →
    List (String × ResolvedEntry) × List ValueCall
  | [], resolved => (resolved, [])
  | col :: rest, resolved =>
    if columnQualifies likelyType col then
      let r := oracle tableName col.column_name term
      match r.«matches», r.status == "success" with
      | best :: _, true =>
        (dictSet (tableName ++ "." ++ col.column_name)
          ⟨term, best.value, best.match_type, best.score⟩ resolved,
         [((tableName, col.column_name, term) : ValueCall)])
      | _, _ =>
        let p := searchColumnsLoop oracle tableName term likelyType rest resolved
        (p.1, ((tableName, col.column_name, term) : ValueCall) :: p.2)
    else searchColumnsLoop oracle tableName term likelyType rest resolved

/-- The outer `for table in table_insights` loop for one term, with the
`if term in str(resolved.values()): break` test after each table. -/
def searchTablesLoop (oracle : String → String → String → SearchIndexResult)
    (term likelyType : String) :
    List TableInsight → List (String × ResolvedEntry) →
    List (String × ResolvedEntry) × List ValueCall
  | [], resolved => (resolved, [])
  | t :: rest, resolved =>
    let p := searchColumnsLoop oracle t.table_name term likelyType t.columns resolved
    if containsS (reprResolvedValues p.1) term then (p.1, p.2)
    else
      let q := searchTablesLoop oracle term likelyType rest p.1
      (q.1, p.2 ++ q.2)

/-- The `for term_info in searchable_terms` loop (empty terms are skipped;
`likely_column_type` is lowercased). -/
def searchTermsLoop (oracle : String → String → String → SearchIndexResult)
    (insights : List TableInsight) :
    List TermInfo → List (String × ResolvedEntry) →
    List (String × ResolvedEntry) × List ValueCall
  | [], resolved => (resolved, [])
  | ti :: rest, resolved =>
    if ti.term == "" then searchTermsLoop oracle insights rest resolved
    else
      let p := searchTablesLoop oracle ti.term (pyLower ti.likely_column_type) insights resolved
      let q := searchTermsLoop oracle insights rest p.1
      (q.1, p.2 ++ q.2)

structure ValuesNodeResult where
  state : AgentState
  calls : List ValueCall

def search_values_node (oracle : String → String → String → SearchIndexResult)
    (s : AgentState) : ValuesNodeResult :=
  if s.intent == some "GREETING" then ⟨s, []⟩
  else
    let searchableTerms := optList s.searchable_terms
    let tableInsights := optList s.table_insights
    if searchableTerms.isEmpty || tableInsights.isEmpty then
      ⟨{s with resolved_values := some []}, []⟩
    else
      let p := searchTermsLoop oracle tableInsights searchableTerms []
      ⟨{s with resolved_values := some p.1}, p.2⟩

example : reprResolvedValues [("T1.status", ⟨"pending", "pending", "contains", ⟨10, 1⟩⟩)]
    = "dict_values([\x7b\x27original_term\x27: \x27pending\x27, \x27actual_value\x27: \x27pending\x27, \x27match_type\x27: \x27contains\x27, \x27score\x27: 1.0\x7d])" := by decide

example : containsS (reprResolvedValues [("T1.status", ⟨"pending", "pending", "contains", ⟨10, 1⟩⟩)])
    "score" = true := by decide

/-! ### Reasoning-markup stripping (graph.py, line 407)

`re.sub(r"<think>.*?</think>", "", content, flags=re.DOTALL)`: remove each
leftmost-shortest span from an opening tag through the first closing tag. -/

/-- Drop everything through the first `</think>`, `none` if there is none. -/
def dropThroughClose : List Char → Option (List Char)
  | [] => none
  | c :: rest =>
    if startsWithL (c :: rest) "</think>".data then some (List.drop 7 rest)
    else dropThroughClose rest

def stripThinkAux : Nat → List Char → List Char
  | 0, l => l
  | fuel + 1, l =>
    match l with
    | [] => []
    | c :: rest =>
      if startsWithL (c :: rest) "<think>".data then
        match dropThroughClose (List.drop 6 rest) with
        | some after => stripThinkAux fuel after
        | none => c :: stripThinkAux fuel rest
      else c :: stripThinkAux fuel rest

def stripThink (s : String) : String := String.mk (stripThinkAux s.data.length s.data)

example : stripThink "<think>reasoning</think>SELECT 1" = "SELECT 1" := by decide

/-! ### extract_sql (graph.py, lines 467-501)

The three Python regexes are realized directly:
- ``` ```(?:sql)?\s*(.*?)``` ``` (DOTALL, IGNORECASE): earliest fence with a
  closing fence; the optional language tag and the greedy whitespace are
  consumed before the lazy capture.
- `(SELECT\s+.*?(?:;|$))` (DOTALL, IGNORECASE, no MULTILINE): earliest
  `SELECT` followed by whitespace, captured lazily up to the first `;`
  (inclusive) or end of text (`$` also matches just before a final newline).
- the split pattern `;\s*(?=\n\s*(?:SELECT|WITH|INSERT|UPDATE|DELETE))`
  (IGNORECASE): a `;` is a statement boundary exactly when the whitespace
  run after it contains a newline and a statement keyword follows the run. -/

def codeFenceDelim : List Char := "```".data

/-- Characters before the first closing fence (`none` when there is none):
the lazy `(.*?)` capture. -/
def takeUntilTicks : List Char → Option (List Char)
  | [] => none
  | c :: rest =>
    if startsWithL (c :: rest) codeFenceDelim then some []
    else (takeUntilTicks rest).map (fun l => c :: l)

/-- Match the fence pattern right after an opening ``` ``` ```. -/
def codeBlockTailMatch (afterTicks : List Char) : Option (List Char) :=
  let afterLang := if ciStartsWithL afterTicks "sql".data then afterTicks.drop 3 else afterTicks
  takeUntilTicks (afterLang.dropWhile isPySpace)

/-- `re.search` for the fenced-block pattern: try every start position, left
to right. -/
def findCodeBlock : List Char → Option (List Char)
  | [] => none
  | c :: rest =>
    if startsWithL (c :: rest) codeFenceDelim then
      match codeBlockTailMatch (List.drop 2 rest) with
      | some cap => some cap
      | none => findCodeBlock rest
    else findCodeBlock rest

/-- The lazy `.*?(?:;|$)` tail of the SELECT pattern: stop at the first `;`
(kept), or at end of text, or just before a final newline. -/
def selectScanTerm : List Char → List Char
  | [] => []
  | c :: rest =>
    if c == ';' then [';']
    else if c == '\n' && rest.isEmpty then []
    else c :: selectScanTerm rest

/-- `re.search` for `(SELECT\s+.*?(?:;|$))`. -/
def findSelectMatch : List Char → Option (List Char)
  | [] => none
  | c :: rest =>
    if ciStartsWithL (c :: rest) "select".data &&
        (match List.drop 5 rest with
         | d :: _ => isPySpace d
         | [] => false) then
      some ((c :: rest).take 6 ++ (List.drop 5 rest).takeWhile isPySpace ++
        selectScanTerm ((List.drop 5 rest).dropWhile isPySpace))
    else findSelectMatch rest

def stmtKeywords : List (List Char) :=
  ["select".data, "with".data, "insert".data, "update".data, "delete".data]

def kwAtStart (l : List Char) : Bool := stmtKeywords.any (fun kw => ciStartsWithL l kw)

/-- Does the split pattern match at a `;` whose tail is `l`? The whitespace
run after the `;` must contain a newline, and a statement keyword must
follow the run (`;\s*(?=\n\s*KW)` with backtracking). -/
def isBoundaryAfterSemi (l : List Char) : Bool :=
  (l.takeWhile isPySpace).contains '\n' && kwAtStart (l.dropWhile isPySpace)

/-- `re.split(multi_stmt_pattern, sql)[0]`: the text before the first
statement boundary. -/
def takeBeforeBoundary : List Char → List Char
  | [] => []
  | c :: rest =>
    if c == ';' && isBoundaryAfterSemi rest then [] else c :: takeBeforeBoundary rest

/-- The extraction priority chain: fenced block, then SELECT regex, then the
whole stripped text when it starts with SELECT. -/
def extractCandidate (text : List Char) : Option (List Char) :=
  match findCodeBlock text with
  | some cap => some (stripL cap)
  | none =>
    match findSelectMatch text with
    | some m => some (stripL m)
    | none =>
      if ciStartsWithL (stripL text) "select".data then some (stripL text) else none

/-- `extract_sql` up to (but not including) the final trailing-semicolon
strip: candidate, emptiness check, first statement, strip. -/
def extractSqlCoreL (text : List Char) : Option (List Char) :=
  match extractCandidate text with
  | none => none
  | some sql => if sql.isEmpty then none else some (stripL (takeBeforeBoundary sql))

/-- `if sql.endswith(";"): sql = sql[:-1]` — remove one trailing semicolon. -/
def stripOneSemi (l : List Char) : List Char :=
  if l.getLast? == some ';' then l.dropLast else l

/-- `extract_sql(text)` from graph.py. -/
def extract_sql (text : String) : Option String :=
  (extractSqlCoreL text.data).map (fun l => String.mk (stripOneSemi l))

example : extract_sql "```sql\nSELECT 1;\nSELECT 2;\n```" = some "SELECT 1" := by decide

example : extract_sql "```sql\nSELECT 1; SELECT 2\n```" = some "SELECT 1; SELECT 2" := by decide

example : extract_sql "Here: SELECT a FROM t; and more" = some "SELECT a FROM t;".data.dropLast.asString := by decide

example : extract_sql "no statement here" = none := by decide

example : extract_sql "  SELECT" = some "SELECT" := by decide

/-! ### Responses built by generate_node (graph.py, lines 441-462, 530-537) -/

def jsonEscChar (c : Char) : List Char :=
  if c = '\\' then ['\\', '\\']
  else if c = '"' then ['\\', '"']
  else if c = '\n' then ['\\', 'n']
  else if c = '\r' then ['\\', 'r']
  else if c = '\t' then ['\\', 't']
  else [c]

def jsonEsc : List Char → List Char
  | [] => []
  | c :: rest => jsonEscChar c ++ jsonEsc rest

/-- `json.dumps` of a string (printable-ASCII fragment). -/
def jsonStr (s : String) : String := String.mk ('"' :: (jsonEsc s.data ++ ['"']))

/-- `format_error_response(question, sql, error)`: the question parameter is
accepted but not serialized, exactly as in the source. -/
def format_error_response (_question sql error : String) : String :=
  "\x7b\"error\": true, \"message\": " ++
    jsonStr ("I tried to answer your question but encountered an error: " ++ error) ++
    ", \"attempted_sql\": " ++ jsonStr sql ++
    ", \"suggestion\": \"Try rephrasing your question or asking about specific tables/columns.\"\x7d"

def jsonCell : Cell → String
  | Cell.null => "null"
  | Cell.str s => jsonStr s
  | Cell.other r => r

def jsonRow (row : List Cell) : String :=
  "[" ++ String.intercalate ", " (row.map jsonCell) ++ "]"

/-- The explain-mode success payload `json.dumps({"sql": ..., "explanation":
..., "data": ..., "columns": ..., "row_count": ...})`. -/
def explainResponse (sql explanation : String) (data : List (List Cell))
    (columns : List String) (rowCount : Nat) : String :=
  "\x7b\"sql\": " ++ jsonStr sql ++ ", \"explanation\": " ++ jsonStr explanation ++
    ", \"data\": [" ++ String.intercalate ", " (data.map jsonRow) ++ "]" ++
    ", \"columns\": [" ++ String.intercalate ", " (columns.map jsonStr) ++ "]" ++
    ", \"row_count\": " ++ toString rowCount ++ "\x7d"

/-! ### generate_node (graph.py, lines 300-464)

The completion-service call is an `Except`-valued input (`Except.error` is a
raised exception, the only raising point inside the `try`); the executor is
an oracle from the generated SQL to its returned dict; the explanation text
(whose generator swallows its own failures, lines 504-527) is a plain input.
The prompt assembly feeds only the completion service, which is an oracle
here, so the prompt string itself does not influence any modelled output.
`calledCompletion`/`calledExecutor` record whether those collaborators were
invoked. The source's `if not sql:` is Python truthiness: both a `None`
extraction (here `none`) and an extracted empty string take the
"Could not generate valid SQL" path without invoking the executor. -/

/-- The retry test on an executor error message (graph.py, line 426). -/
def retryableErrorMsg (msg : String) : Bool :=
  containsS (pyLower msg) "syntax" || containsS (pyLower msg) "column" ||
    containsS (pyLower msg) "relation"

structure GenResult where
  state : AgentState
  calledCompletion : Bool
  calledExecutor : Bool
deriving DecidableEq

def generate_node (llm : Except String String) (exec : String → ExecReturn)
    (explanationText : String) (s : AgentState) : GenResult :=
  let relevantTables := optList s.relevant_tables
  if s.intent == some "GREETING" && optStrTruthy s.response then ⟨s, false, false⟩
  else if relevantTables.isEmpty then
    ⟨{s with response := some "I couldn't find any relevant tables for your question.",
             error := some "No tables to query"}, false, false⟩
  else
    match llm with
    | Except.error e =>
      ⟨{s with error := some e, response := some ("Error generating response: " ++ e)},
       true, false⟩
    | Except.ok content =>
      match extract_sql (pyStrip (stripThink content)) with
      | none =>
        ⟨{s with error := some "Could not generate valid SQL",
                 response := some "I couldn't generate a valid SQL query for your question."},
         true, false⟩
      | some sql =>
        if sql.data.isEmpty then
          ⟨{s with error := some "Could not generate valid SQL",
                   response := some "I couldn't generate a valid SQL query for your question."},
           true, false⟩
        else
        let s1 := {s with generated_sql := some sql, sql_query := some sql}
        let result := exec sql
        if result.status == "error" then
          let errorMsg := result.message
          if retryableErrorMsg errorMsg && decide (s.sql_attempts < MAX_SQL_RETRIES - 1) then
            ⟨{s1 with sql_attempts := s.sql_attempts + 1, last_sql_error := some errorMsg},
             true, true⟩
          else
            ⟨{s1 with error := some errorMsg,
                      response := some (format_error_response s.question sql errorMsg)},
             true, true⟩
        else
          let s2 := {s1 with columns := some result.columns, data := some result.rows}
          if s.explain_mode then
            ⟨{s2 with explanation := some explanationText,
                      response := some (explainResponse sql explanationText result.rows
                        result.columns result.row_count)}, true, true⟩
          else
            ⟨{s2 with response := some (rows_to_csv result.columns result.rows)}, true, true⟩

/-- `should_retry_generate(state)` (graph.py, lines 540-550): route back to
"generate" exactly when a truthy `last_sql_error` is present, `sql_attempts`
is strictly between 0 and `MAX_SQL_RETRIES`, and the `response` is falsy. -/
def should_retry_generate (s : AgentState) : String :=
  if optStrTruthy s.last_sql_error && decide (0 < s.sql_attempts) &&
      decide (s.sql_attempts < MAX_SQL_RETRIES) then
    if !optStrTruthy s.response then "generate" else "end"
  else "end"

/-- A convenient fully-blank initial state (run_agent, graph.py 605-623). -/
def initialState (question : String) (connectionId : Int) (explainMode : Bool) : AgentState :=
  ⟨question, connectionId, explainMode, none, none, none, none, none, none, 0, none,
   none, none, none, none, none, none⟩

/-! ### Helper lemmas -/

theorem optStrTruthy_append_left (a b : String) (h : a.data ≠ []) :
    optStrTruthy (some (a ++ b)) = true := by
  simp [optStrTruthy, String.data_append]
  intro ha
  exact absurd ha h

theorem optStrTruthy_lit (a : String) (h : a.data ≠ []) :
    optStrTruthy (some a) = true := by
  simp [optStrTruthy]
  exact h

/-- A retryable executor message contains a non-empty indicator, hence is
truthy. -/
theorem retryable_msg_truthy (msg : String) (h : retryableErrorMsg msg = true) :
    optStrTruthy (some msg) = true := by
  rcases hm : msg.data with _ | ⟨c, rest⟩
  · exfalso
    simp [retryableErrorMsg, containsS, pyLower, pyLowerL, hm, containsL] at h
  · simp [optStrTruthy, hm]

theorem defaultIntent_ne_greeting (q : String) : defaultIntent q ≠ "GREETING" := by
  intro h
  have hlen := congrArg (fun s => s.data.length) h
  simp [defaultIntent, String.data_append] at hlen

/-! ### Claim C2 -/

/-- C2: for every workflow state whose `relevant_tables` is the empty list
(and whose intent is not the greeting sentinel), `generate_node` never
invokes the completion service or the executor, sets the "no relevant
tables" response and the error field, and the retry router then terminates
the workflow. -/
theorem generate_no_tables_short_circuit
    (llm : Except String String) (exec : String → ExecReturn) (explText : String)
    (s : AgentState)
    (hintent : s.intent ≠ some "GREETING")
    (htables : s.relevant_tables = some []) :
    (generate_node llm exec explText s).calledCompletion = false ∧
    (generate_node llm exec explText s).calledExecutor = false ∧
    (generate_node llm exec explText s).state.response
      = some "I couldn't find any relevant tables for your question." ∧
    (generate_node llm exec explText s).state.error = some "No tables to query" ∧
    should_retry_generate (generate_node llm exec explText s).state = "end" := by
  have hbeq : (s.intent == some "GREETING") = false := by
    simp [hintent]
  simp only [generate_node, hbeq, Bool.false_and, htables, optList, List.isEmpty_nil,
    if_true, if_false, Bool.false_eq_true]
  refine ⟨trivial, trivial, trivial, trivial, ?_⟩
  simp only [should_retry_generate]
  split
  · simp [optStrTruthy]
  · rfl

/-- Witness for C2 at a concrete state. -/
theorem generate_no_tables_short_circuit_witness :
    (generate_node (Except.ok "SELECT 1") (fun _ => ⟨"success", "", [], [], 0, false⟩) "e"
      { initialState "q" 1 true with intent := some "Find data", relevant_tables := some [] }
      ).state.response = some "I couldn't find any relevant tables for your question." :=
  (generate_no_tables_short_circuit (Except.ok "SELECT 1")
    (fun _ => ⟨"success", "", [], [], 0, false⟩) "e"
    { initialState "q" 1 true with intent := some "Find data", relevant_tables := some [] }
    (by decide) rfl).2.2.1

/-! ### Claim C3 -/

/-- C3: whenever Understand classifies the turn as a greeting it also sets
the canned greeting response; and on every state carrying the greeting
sentinel together with that response, Retrieve, Enrich, Resolve Values and
Generate all return the state unchanged without consulting any external
collaborator, so the final response of the composed pipeline is exactly the
canned greeting text and the workflow routes to END. -/
theorem greeting_stages_passthrough
    (s : AgentState) (outcome : UnderstandOutcome)
    (search : String → SearchDBResult) (getInsights : List String → InsightsResult)
    (oracle : String → String → String → SearchIndexResult)
    (llm : Except String String) (exec : String → ExecReturn) (explText : String) :
    ((understand_node outcome s).intent = some "GREETING" →
      (understand_node outcome s).response = some greetingResponse) ∧
    (s.intent = some "GREETING" → s.response = some greetingResponse →
      retrieve_node search s = ⟨s, false⟩ ∧
      enrich_node getInsights s = ⟨s, false⟩ ∧
      (search_values_node oracle s).state = s ∧
      (search_values_node oracle s).calls = [] ∧
      generate_node llm exec explText s = ⟨s, false, false⟩ ∧
      (generate_node llm exec explText (search_values_node oracle (enrich_node getInsights
        (retrieve_node search s).state).state).state).state.response = some greetingResponse ∧
      should_retry_generate (generate_node llm exec explText (search_values_node oracle
        (enrich_node getInsights (retrieve_node search s).state).state).state).state = "end") := by
  constructor
  · intro hg
    cases outcome with
    | parsedJson i t =>
      by_cases hc : (i.getD (defaultIntent s.question)) = "GREETING"
      · simp [understand_node, hc]
      · exfalso
        simp [understand_node, hc] at hg
    | parseFail =>
      by_cases hc : fallbackIsGreeting s.question
      · simp [understand_node, hc]
      · exfalso
        simp [understand_node, hc] at hg
        exact defaultIntent_ne_greeting s.question hg
    | exc e =>
      simp only [understand_node, Option.some.injEq] at hg
      exact absurd hg (defaultIntent_ne_greeting s.question)
  · intro hintent hresp
    have hbeq : (s.intent == some "GREETING") = true := by simp [hintent]
    have htruthy : optStrTruthy s.response = true := by
      rw [hresp]; exact optStrTruthy_lit _ (by decide)
    have h1 : retrieve_node search s = ⟨s, false⟩ := by simp [retrieve_node, hbeq]
    have h2 : enrich_node getInsights s = ⟨s, false⟩ := by simp [enrich_node, hbeq]
    have h3 : search_values_node oracle s = ⟨s, []⟩ := by simp [search_values_node, hbeq]
    have h4 : generate_node llm exec explText s = ⟨s, false, false⟩ := by
      simp [generate_node, hbeq, htruthy]
    refine ⟨h1, h2, by rw [h3], by rw [h3], h4, ?_, ?_⟩
    · rw [h1]
      show (generate_node llm exec explText (search_values_node oracle
        (enrich_node getInsights s).state).state).state.response = some greetingResponse
      rw [h2]
      show (generate_node llm exec explText (search_values_node oracle s).state).state.response
        = some greetingResponse
      rw [h3, h4]
      exact hresp
    · rw [h1]
      show should_retry_generate (generate_node llm exec explText (search_values_node oracle
        (enrich_node getInsights s).state).state).state = "end"
      rw [h2]
      show should_retry_generate (generate_node llm exec explText
        (search_values_node oracle s).state).state = "end"
      rw [h3, h4]
      simp only [should_retry_generate]
      split
      · simp [htruthy]
      · rfl

/-- Witness for C3 at a concrete greeting state. -/
theorem greeting_stages_passthrough_witness :
    retrieve_node (fun _ => ⟨"success", []⟩)
      { initialState "hello" 1 true with
        intent := some "GREETING"
        response := some greetingResponse }
      = ⟨{ initialState "hello" 1 true with
           intent := some "GREETING"
           response := some greetingResponse }, false⟩ :=
  ((greeting_stages_passthrough
    { initialState "hello" 1 true with
      intent := some "GREETING"
      response := some greetingResponse }
    UnderstandOutcome.parseFail
    (fun _ => ⟨"success", []⟩) (fun _ => ⟨"success", []⟩)
    (fun _ _ _ => ⟨"success", []⟩)
    (Except.ok "SELECT 1") (fun _ => ⟨"success", "", [], [], 0, false⟩) "e").2
    rfl rfl).1

/-! ### Claim C10 -/

/-- C10: `_cosine_similarity` is total and guarded: when either computed
norm is zero the result is 0.0 (the division is never taken with a zero
divisor), and when both norms are non-zero their product is non-zero and
the result times that product is exactly the dot product. -/
theorem cosine_similarity_total_guarded (vec1 vec2 : List ℝ) :
    ((Real.sqrt ((vec1.map (fun a => a * a)).sum) = 0 ∨
      Real.sqrt ((vec2.map (fun b => b * b)).sum) = 0) →
      _cosine_similarity vec1 vec2 = 0) ∧
    (Real.sqrt ((vec1.map (fun a => a * a)).sum) ≠ 0 →
      Real.sqrt ((vec2.map (fun b => b * b)).sum) ≠ 0 →
      Real.sqrt ((vec1.map (fun a => a * a)).sum) *
        Real.sqrt ((vec2.map (fun b => b * b)).sum) ≠ 0 ∧
      _cosine_similarity vec1 vec2 *
        (Real.sqrt ((vec1.map (fun a => a * a)).sum) *
         Real.sqrt ((vec2.map (fun b => b * b)).sum))
        = ((vec1.zip vec2).map (fun p => p.1 * p.2)).sum) := by
  constructor
  · intro h
    simp only [_cosine_similarity]
    rw [if_pos h]
  · intro h1 h2
    have hne : Real.sqrt ((vec1.map (fun a => a * a)).sum) *
        Real.sqrt ((vec2.map (fun b => b * b)).sum) ≠ 0 := mul_ne_zero h1 h2
    refine ⟨hne, ?_⟩
    simp only [_cosine_similarity]
    rw [if_neg (by push_neg; exact ⟨h1, h2⟩)]
    exact div_mul_cancel₀ _ hne

/-- Witness for C10: the guard fires on a zero vector. -/
theorem cosine_similarity_total_guarded_witness :
    _cosine_similarity [(0 : ℝ)] [(1 : ℝ)] = 0 :=
  (cosine_similarity_total_guarded [(0 : ℝ)] [(1 : ℝ)]).1
    (Or.inl (by simp))

/-! ### Claim C9 -/

/-- The transport-level failures the executor loop retries: a connection
error whose text contains "unexpected connection_lost", or a timeout. -/
def isTransportRetryable : AttemptOutcome → Bool
  | AttemptOutcome.connErr m => containsL (pyLowerL m.data) "unexpected connection_lost".data
  | AttemptOutcome.timedOut _ => true
  | _ => false

theorem execAttemptLoop_attempts_le (script : Nat → AttemptOutcome) (maxRows : Nat) :
    ∀ (fuel idx : Nat) (le : Option String) (sl : List PyFloat),
      (execAttemptLoop script maxRows fuel idx le sl).attemptsUsed ≤ idx + fuel := by
  intro fuel
  induction fuel with
  | zero => intro idx le sl; simp [execAttemptLoop]
  | succ n ih =>
    intro idx le sl
    cases hs : script idx with
    | ok cols rows =>
      simp only [execAttemptLoop, hs]
      show idx + 1 ≤ idx + (n + 1); omega
    | sqlSynErr m =>
      simp only [execAttemptLoop, hs]
      show idx + 1 ≤ idx + (n + 1); omega
    | otherExc m =>
      simp only [execAttemptLoop, hs]
      show idx + 1 ≤ idx + (n + 1); omega
    | connErr m =>
      simp only [execAttemptLoop, hs]
      split
      · split
        · have := ih (idx + 1) (some m) (sl ++ [⟨10 * ((idx : Int) + 1), 1⟩])
          omega
        · show idx + 1 ≤ idx + (n + 1); omega
      · show idx + 1 ≤ idx + (n + 1); omega
    | timedOut m =>
      simp only [execAttemptLoop, hs]
      split
      · have := ih (idx + 1) (some m) (sl ++ [⟨10 * ((idx : Int) + 1), 1⟩])
        omega
      · show idx + 1 ≤ idx + (n + 1); omega

theorem execAttemptLoop_retries_transport (script : Nat → AttemptOutcome) (maxRows : Nat) :
    ∀ (fuel idx : Nat) (le : Option String) (sl : List PyFloat) (j : Nat), idx ≤ j →
      j + 1 < (execAttemptLoop script maxRows fuel idx le sl).attemptsUsed →
      isTransportRetryable (script j) = true := by
  intro fuel
  induction fuel with
  | zero => intro idx le sl j hij hlt; simp [execAttemptLoop] at hlt; omega
  | succ n ih =>
    intro idx le sl j hij hlt
    cases hs : script idx with
    | ok cols rows => simp only [execAttemptLoop, hs] at hlt; omega
    | sqlSynErr m => simp only [execAttemptLoop, hs] at hlt; omega
    | otherExc m => simp only [execAttemptLoop, hs] at hlt; omega
    | connErr m =>
      simp only [execAttemptLoop, hs] at hlt
      by_cases hm : containsL (pyLowerL m.data) "unexpected connection_lost".data = true
      · rw [if_pos hm] at hlt
        by_cases hidx : idx < 2
        · rw [if_pos hidx] at hlt
          rcases Nat.eq_or_lt_of_le hij with heq | hgt
          · subst heq; simp [isTransportRetryable, hs, hm]
          · exact ih (idx + 1) (some m) _ j hgt hlt
        · rw [if_neg hidx] at hlt
          have : j + 1 < idx + 1 := hlt
          omega
      · rw [if_neg hm] at hlt
        have : j + 1 < idx + 1 := hlt
        omega
    | timedOut m =>
      simp only [execAttemptLoop, hs] at hlt
      by_cases hidx : idx < 2
      · rw [if_pos hidx] at hlt
        rcases Nat.eq_or_lt_of_le hij with heq | hgt
        · subst heq; simp [isTransportRetryable, hs]
        · exact ih (idx + 1) (some m) _ j hgt hlt
      · rw [if_neg hidx] at hlt
        have : j + 1 < idx + 1 := hlt
        omega

/-- Per-invocation frame: `generate_node` changes `sql_attempts` by 0 or 1,
whatever the executor reported. -/
theorem generate_node_attempts_delta (llm : Except String String)
    (exec : String → ExecReturn) (explText : String) (s : AgentState) :
    (generate_node llm exec explText s).state.sql_attempts = s.sql_attempts ∨
    (generate_node llm exec explText s).state.sql_attempts = s.sql_attempts + 1 := by
  rcases llm with e | content <;> simp only [generate_node] <;>
    repeat' first
      | (exact Or.inl rfl)
      | (exact Or.inr rfl)
      | split

/-- The backoff schedule actually slept is always a prefix of the linear
schedule `[1.0, 2.0]`. -/
theorem execute_sleeps_linear (script : Nat → AttemptOutcome) (maxRows : Nat) :
    (execute_sql_query true script maxRows).sleeps = [] ∨
    (execute_sql_query true script maxRows).sleeps = [⟨10, 1⟩] ∨
    (execute_sql_query true script maxRows).sleeps = [⟨10, 1⟩, ⟨20, 1⟩] := by
  simp only [execute_sql_query, if_pos]
  cases h0 : script 0 with
  | ok cols rows => simp [execAttemptLoop, h0]
  | sqlSynErr m => simp [execAttemptLoop, h0]
  | otherExc m => simp [execAttemptLoop, h0]
  | connErr m =>
    simp only [execAttemptLoop, h0]
    split
    · rw [if_pos (by omega : (0 : Nat) < 2)]
      cases h1 : script 1 with
      | ok cols rows => simp [execAttemptLoop, h1]
      | sqlSynErr m1 => simp [execAttemptLoop, h1]
      | otherExc m1 => simp [execAttemptLoop, h1]
      | connErr m1 =>
        simp only [execAttemptLoop, h1]
        split
        · rw [if_pos (by omega : (1 : Nat) < 2)]
          cases h2 : script 2 with
          | ok cols rows => simp [execAttemptLoop, h2]
          | sqlSynErr m2 => simp [execAttemptLoop, h2]
          | otherExc m2 => simp [execAttemptLoop, h2]
          | connErr m2 =>
            simp only [execAttemptLoop, h2]
            split
            · rw [if_neg (by omega : ¬ (2 : Nat) < 2)]; simp
            · simp
          | timedOut m2 =>
            simp only [execAttemptLoop, h2]
            rw [if_neg (by omega : ¬ (2 : Nat) < 2)]; simp
        · simp
      | timedOut m1 =>
        simp only [execAttemptLoop, h1]
        rw [if_pos (by omega : (1 : Nat) < 2)]
        cases h2 : script 2 with
        | ok cols rows => simp [execAttemptLoop, h2]
        | sqlSynErr m2 => simp [execAttemptLoop, h2]
        | otherExc m2 => simp [execAttemptLoop, h2]
        | connErr m2 =>
          simp only [execAttemptLoop, h2]
          split
          · rw [if_neg (by omega : ¬ (2 : Nat) < 2)]; simp
          · simp
        | timedOut m2 =>
          simp only [execAttemptLoop, h2]
          rw [if_neg (by omega : ¬ (2 : Nat) < 2)]; simp
    · simp
  | timedOut m =>
    simp only [execAttemptLoop, h0]
    rw [if_pos (by omega : (0 : Nat) < 2)]
    cases h1 : script 1 with
    | ok cols rows => simp [execAttemptLoop, h1]
    | sqlSynErr m1 => simp [execAttemptLoop, h1]
    | otherExc m1 => simp [execAttemptLoop, h1]
    | connErr m1 =>
      simp only [execAttemptLoop, h1]
      split
      · rw [if_pos (by omega : (1 : Nat) < 2)]
        cases h2 : script 2 with
        | ok cols rows => simp [execAttemptLoop, h2]
        | sqlSynErr m2 => simp [execAttemptLoop, h2]
        | otherExc m2 => simp [execAttemptLoop, h2]
        | connErr m2 =>
          simp only [execAttemptLoop, h2]
          split
          · rw [if_neg (by omega : ¬ (2 : Nat) < 2)]; simp
          · simp
        | timedOut m2 =>
          simp only [execAttemptLoop, h2]
          rw [if_neg (by omega : ¬ (2 : Nat) < 2)]; simp
      · simp
    | timedOut m1 =>
      simp only [execAttemptLoop, h1]
      rw [if_pos (by omega : (1 : Nat) < 2)]
      cases h2 : script 2 with
      | ok cols rows => simp [execAttemptLoop, h2]
      | sqlSynErr m2 => simp [execAttemptLoop, h2]
      | otherExc m2 => simp [execAttemptLoop, h2]
      | connErr m2 =>
        simp only [execAttemptLoop, h2]
        split
        · rw [if_neg (by omega : ¬ (2 : Nat) < 2)]; simp
        · simp
      | timedOut m2 =>
        simp only [execAttemptLoop, h2]
        rw [if_neg (by omega : ¬ (2 : Nat) < 2)]; simp

/-- C9: the query executor performs at most 3 attempts with linear backoff
(`1.0`, then `2.0` seconds), every attempt that was followed by a retry was
a transport-level failure (connection-lost or timeout), a SQL syntax error
on the first attempt is returned immediately after exactly one attempt, and
no executor-internal retry changes the workflow's `sql_attempts` counter by
more than the single workflow-level increment. -/
theorem executor_bounded_transport_retry (detailsFound : Bool)
    (script : Nat → AttemptOutcome) (maxRows : Nat) :
    (execute_sql_query detailsFound script maxRows).attemptsUsed ≤ 3 ∧
    ((execute_sql_query detailsFound script maxRows).sleeps = [] ∨
     (execute_sql_query detailsFound script maxRows).sleeps = [⟨10, 1⟩] ∨
     (execute_sql_query detailsFound script maxRows).sleeps = [⟨10, 1⟩, ⟨20, 1⟩]) ∧
    (∀ j, j + 1 < (execute_sql_query detailsFound script maxRows).attemptsUsed →
      isTransportRetryable (script j) = true) ∧
    (∀ m, detailsFound = true → script 0 = AttemptOutcome.sqlSynErr m →
      (execute_sql_query detailsFound script maxRows).attemptsUsed = 1 ∧
      (execute_sql_query detailsFound script maxRows).result.status = "error" ∧
      (execute_sql_query detailsFound script maxRows).result.message
        = "SQL syntax error: " ++ m) ∧
    (∀ (llm : Except String String) (explText : String) (s : AgentState),
      (generate_node llm (fun _ => (execute_sql_query detailsFound script maxRows).result)
        explText s).state.sql_attempts = s.sql_attempts ∨
      (generate_node llm (fun _ => (execute_sql_query detailsFound script maxRows).result)
        explText s).state.sql_attempts = s.sql_attempts + 1) := by
  cases detailsFound with
  | false =>
    refine ⟨by simp [execute_sql_query], Or.inl (by simp [execute_sql_query]), ?_, ?_, ?_⟩
    · intro j hj
      simp [execute_sql_query] at hj
    · intro m hfalse
      exact absurd hfalse (by simp)
    · intro llm explText s
      exact generate_node_attempts_delta llm _ explText s
  | true =>
    refine ⟨?_, execute_sleeps_linear script maxRows, ?_, ?_, ?_⟩
    · have := execAttemptLoop_attempts_le script maxRows 3 0 none []
      simpa [execute_sql_query] using this
    · intro j hj
      have := execAttemptLoop_retries_transport script maxRows 3 0 none [] j (Nat.zero_le j)
      simp only [execute_sql_query, if_pos] at hj
      exact this hj
    · intro m _ h0
      simp [execute_sql_query, execAttemptLoop, h0]
    · intro llm explText s
      exact generate_node_attempts_delta llm _ explText s

/-- Witness for C9: a syntax error is returned after exactly one attempt. -/
theorem executor_bounded_transport_retry_witness :
    (execute_sql_query true (fun _ => AttemptOutcome.sqlSynErr "bad syntax") 100).attemptsUsed
      = 1 :=
  ((executor_bounded_transport_retry true (fun _ => AttemptOutcome.sqlSynErr "bad syntax")
    100).2.2.2.1 "bad syntax" rfl rfl).1

/-! ### Claim C7 -/

/-- Counterexample for C7: on the question "show this" (2 words, no greeting
phrase equal to the trimmed case-folded question, but "hi" occurs inside
"this"), the parse-failure fallback classifies the question as a greeting,
so greeting classification is not equivalent to a full-question phrase
match. -/
theorem understand_fallback_substring_counterexample :
    (understand_node UnderstandOutcome.parseFail (initialState "show this" 1 true)).intent
      = some "GREETING" ∧
    (understand_node UnderstandOutcome.parseFail (initialState "show this" 1 true)).response
      = some greetingResponse ∧
    pyWordCount "show this" ≤ 3 ∧
    greetings.all (fun g => !(g == pyLower (pyStrip "show this"))) = true := by
  refine ⟨by decide, by decide, by decide, by decide⟩

/-- C7 (amended): on parse failure the fallback classifies the question as a
greeting iff some fixed greeting phrase occurs as a substring of the
case-folded question and the question has at most 3 words; a greeting gets
the canned response and empty terms, any other question gets the default
"Find data related to:" intent with empty terms; and a completion-service
exception is recorded as an "Intent parsing warning:" on the error field
with the same default intent and empty terms (Understand never raises). -/
theorem understand_fallback_and_exception (s : AgentState) :
    ((understand_node UnderstandOutcome.parseFail s).intent = some "GREETING" ↔
      (greetings.any (fun g => containsS (pyLower s.question) g) = true ∧
       pyWordCount s.question ≤ 3)) ∧
    (fallbackIsGreeting s.question = true →
      (understand_node UnderstandOutcome.parseFail s).response = some greetingResponse ∧
      (understand_node UnderstandOutcome.parseFail s).searchable_terms = some []) ∧
    (fallbackIsGreeting s.question = false →
      (understand_node UnderstandOutcome.parseFail s).intent = some (defaultIntent s.question) ∧
      (understand_node UnderstandOutcome.parseFail s).searchable_terms = some [] ∧
      (understand_node UnderstandOutcome.parseFail s).response = s.response) ∧
    (∀ e, (understand_node (UnderstandOutcome.exc e) s).intent
        = some (defaultIntent s.question) ∧
      (understand_node (UnderstandOutcome.exc e) s).searchable_terms = some [] ∧
      (understand_node (UnderstandOutcome.exc e) s).error
        = some ("Intent parsing warning: " ++ String.mk (e.data.take 100))) := by
  refine ⟨?_, ?_, ?_, ?_⟩
  · constructor
    · intro hg
      by_cases hc : fallbackIsGreeting s.question
      · simpa [fallbackIsGreeting, Bool.and_eq_true, decide_eq_true_eq] using hc
      · exfalso
        simp [understand_node, hc] at hg
        exact defaultIntent_ne_greeting s.question hg
    · intro hcond
      have hc : fallbackIsGreeting s.question = true := by
        simp [fallbackIsGreeting, hcond.1, hcond.2]
      simp [understand_node, hc]
  · intro hc
    simp [understand_node, hc]
  · intro hc
    simp [understand_node, hc]
  · intro e
    simp [understand_node]

/-- Witness for C7 at a concrete greeting question. -/
theorem understand_fallback_and_exception_witness :
    (understand_node UnderstandOutcome.parseFail (initialState "hello" 1 true)).response
      = some greetingResponse :=
  ((understand_fallback_and_exception (initialState "hello" 1 true)).2.1 (by decide)).1

/-! ### Claim C6 -/

/-- Value of a decimal float as a rational. -/
def PyFloat.val (f : PyFloat) : ℚ := (f.mantissa : ℚ) / (10 : ℚ) ^ f.exponent

theorem pow10_cast (n : Nat) : ((pow10 n : Int) : ℚ) = (10 : ℚ) ^ n := by
  induction n with
  | zero => simp [pow10]
  | succ k ih => push_cast [pow10, pow_succ]; push_cast at ih; rw [ih]; ring

theorem pow10_pos_rat (n : Nat) : (0 : ℚ) < (10 : ℚ) ^ n := by positivity

theorem PyFloat.lt_iff (a b : PyFloat) : PyFloat.lt a b = true ↔ PyFloat.val a < PyFloat.val b := by
  simp only [PyFloat.lt, decide_eq_true_eq, PyFloat.val]
  rw [div_lt_div_iff₀ (pow10_pos_rat a.exponent) (pow10_pos_rat b.exponent)]
  constructor
  · intro h
    have h2 : ((a.mantissa * pow10 b.exponent : Int) : ℚ)
        < ((b.mantissa * pow10 a.exponent : Int) : ℚ) := by exact_mod_cast h
    push_cast [pow10_cast] at h2
    linarith
  · intro h
    have h2 : ((a.mantissa * pow10 b.exponent : Int) : ℚ)
        < ((b.mantissa * pow10 a.exponent : Int) : ℚ) := by
      push_cast [pow10_cast]
      linarith
    exact_mod_cast h2

/-- Descending order between adjacent sorted entries: the earlier score is
not smaller. -/
def scoreGeRel (a b : ValueMatch) : Prop := PyFloat.lt a.score b.score = false

theorem mem_insertByScoreDesc {y m : ValueMatch} {l : List ValueMatch} :
    y ∈ insertByScoreDesc m l ↔ y = m ∨ y ∈ l := by
  induction l with
  | nil => simp [insertByScoreDesc]
  | cons x xs ih =>
    simp only [insertByScoreDesc]
    split
    · simp
    · simp [ih]
      tauto

theorem insertByScoreDesc_sorted (m : ValueMatch) (l : List ValueMatch)
    (h : l.Pairwise scoreGeRel) : (insertByScoreDesc m l).Pairwise scoreGeRel := by
  induction l with
  | nil => simp [insertByScoreDesc, List.Pairwise]
  | cons x xs ih =>
    rcases List.pairwise_cons.mp h with ⟨hx, hxs⟩
    simp only [insertByScoreDesc]
    split
    · rename_i hlt
      refine List.pairwise_cons.mpr ⟨?_, h⟩
      intro y hy
      rcases List.mem_cons.mp hy with rfl | hmem
      · show PyFloat.lt m.score y.score = false
        rw [Bool.eq_false_iff]
        intro hcontra
        have h1 := (PyFloat.lt_iff _ _).mp hlt
        have h2 := (PyFloat.lt_iff _ _).mp hcontra
        linarith
      · have hxy := hx y hmem
        show PyFloat.lt m.score y.score = false
        rw [Bool.eq_false_iff]
        intro hcontra
        have h1 := (PyFloat.lt_iff _ _).mp hlt
        have h2 := (PyFloat.lt_iff _ _).mp hcontra
        have h3 : ¬ PyFloat.val x.score < PyFloat.val y.score := by
          intro hc
          exact absurd ((PyFloat.lt_iff _ _).mpr hc) (by simpa [scoreGeRel] using hxy)
        push_neg at h3
        linarith
    · rename_i hnlt
      refine List.pairwise_cons.mpr ⟨?_, ih hxs⟩
      intro y hy
      rcases mem_insertByScoreDesc.mp hy with rfl | hmem
      · show PyFloat.lt x.score y.score = false
        exact Bool.eq_false_iff.mpr (by simpa using hnlt)
      · exact hx y hmem

theorem sortByScoreDesc_foldl_sorted (l : List ValueMatch) :
    ∀ acc : List ValueMatch, acc.Pairwise scoreGeRel →
      (l.foldl (fun acc m => insertByScoreDesc m acc) acc).Pairwise scoreGeRel := by
  induction l with
  | nil => intro acc h; simpa using h
  | cons x xs ih =>
    intro acc h
    exact ih (insertByScoreDesc x acc) (insertByScoreDesc_sorted x acc h)

theorem sortByScoreDesc_sorted (l : List ValueMatch) :
    (sortByScoreDesc l).Pairwise scoreGeRel :=
  sortByScoreDesc_foldl_sorted l [] (by simp)

theorem mem_sortByScoreDesc_foldl {y : ValueMatch} (l : List ValueMatch) :
    ∀ acc : List ValueMatch,
      (y ∈ l.foldl (fun acc m => insertByScoreDesc m acc) acc ↔ y ∈ acc ∨ y ∈ l) := by
  induction l with
  | nil => intro acc; simp
  | cons x xs ih =>
    intro acc
    simp only [List.foldl_cons]
    rw [ih (insertByScoreDesc x acc)]
    simp [mem_insertByScoreDesc]
    tauto

theorem mem_sortByScoreDesc {y : ValueMatch} {l : List ValueMatch} :
    y ∈ sortByScoreDesc l ↔ y ∈ l := by
  rw [sortByScoreDesc, mem_sortByScoreDesc_foldl]
  simp

theorem categoricalRawMatches_cons_pos (t : List Char) (w : String)
    (rest : List (Option String))
    (h : (containsL (pyLowerL w.data) t || containsL t (pyLowerL w.data)) = true) :
    categoricalRawMatches t (some w :: rest)
      = ⟨w, "contains", ⟨10, 1⟩⟩ :: categoricalRawMatches t rest := by
  simp [categoricalRawMatches, h]

theorem categoricalRawMatches_cons_fuzzy (t : List Char) (w : String)
    (rest : List (Option String))
    (h : (containsL (pyLowerL w.data) t || containsL t (pyLowerL w.data)) = false)
    (hf : _fuzzy_match t (pyLowerL w.data) = true) :
    categoricalRawMatches t (some w :: rest)
      = ⟨w, "fuzzy", ⟨8, 1⟩⟩ :: categoricalRawMatches t rest := by
  simp [categoricalRawMatches, h, hf]

theorem categoricalRawMatches_cons_skip (t : List Char) (w : String)
    (rest : List (Option String))
    (h : (containsL (pyLowerL w.data) t || containsL t (pyLowerL w.data)) = false)
    (hf : _fuzzy_match t (pyLowerL w.data) = false) :
    categoricalRawMatches t (some w :: rest) = categoricalRawMatches t rest := by
  simp [categoricalRawMatches, h, hf]

/-- Full characterization of the raw categorical scan: a match is reported
exactly for a stored non-null value, as `contains`/1.0 under the mutual
case-insensitive containment test, else as `fuzzy`/0.8 under
`_fuzzy_match`. -/
theorem mem_categoricalRawMatches (t : List Char) (values : List (Option String))
    (m : ValueMatch) :
    m ∈ categoricalRawMatches t values ↔
      some m.value ∈ values ∧
      ((containsL (pyLowerL m.value.data) t ∨ containsL t (pyLowerL m.value.data)) ∧
         m.match_type = "contains" ∧ m.score = ⟨10, 1⟩ ∨
       ¬(containsL (pyLowerL m.value.data) t ∨ containsL t (pyLowerL m.value.data)) ∧
         _fuzzy_match t (pyLowerL m.value.data) = true ∧
         m.match_type = "fuzzy" ∧ m.score = ⟨8, 1⟩) := by
  induction values with
  | nil => simp [categoricalRawMatches]
  | cons hd rest ih =>
    cases hd with
    | none =>
      show m ∈ categoricalRawMatches t rest ↔ _
      rw [ih]
      constructor
      · rintro ⟨h1, h2⟩; exact ⟨List.mem_cons_of_mem _ h1, h2⟩
      · rintro ⟨h1, h2⟩
        rcases List.mem_cons.mp h1 with hbad | h1
        · exact absurd hbad (by simp)
        · exact ⟨h1, h2⟩
    | some w =>
      rcases hcond : (containsL (pyLowerL w.data) t || containsL t (pyLowerL w.data)) with _ | _
      · rcases hfuzz : _fuzzy_match t (pyLowerL w.data) with _ | _
        · rw [categoricalRawMatches_cons_skip t w rest hcond hfuzz, ih]
          constructor
          · rintro ⟨h1, h2⟩; exact ⟨List.mem_cons_of_mem _ h1, h2⟩
          · rintro ⟨h1, h2⟩
            rcases List.mem_cons.mp h1 with hw | h1
            · exfalso
              have hvw : m.value = w := by simpa using hw
              subst hvw
              rcases h2 with ⟨hc, _, _⟩ | ⟨_, hf, _, _⟩
              · rcases hc with hc | hc <;> simp [hc] at hcond
              · rw [hf] at hfuzz; exact Bool.true_eq_false.mp hfuzz
            · exact ⟨h1, h2⟩
        · rw [categoricalRawMatches_cons_fuzzy t w rest hcond hfuzz, List.mem_cons, ih]
          constructor
          · rintro (rfl | ⟨h1, h2⟩)
            · refine ⟨List.mem_cons_self _ _, Or.inr ⟨?_, hfuzz, rfl, rfl⟩⟩
              rintro (hc | hc) <;> simp [hc] at hcond
            · exact ⟨List.mem_cons_of_mem _ h1, h2⟩
          · rintro ⟨h1, h2⟩
            rcases List.mem_cons.mp h1 with hw | h1
            · have hvw : m.value = w := by simpa using hw
              subst hvw
              rcases h2 with ⟨hc, _, _⟩ | ⟨_, _, hmt, hsc⟩
              · exfalso
                rcases hc with hc | hc <;> simp [hc] at hcond
              · left
                cases m
                simp_all
            · exact Or.inr ⟨h1, h2⟩
      · rw [categoricalRawMatches_cons_pos t w rest hcond, List.mem_cons, ih]
        constructor
        · rintro (rfl | ⟨h1, h2⟩)
          · refine ⟨List.mem_cons_self _ _, Or.inl ⟨?_, rfl, rfl⟩⟩
            simpa [Bool.or_eq_true] using hcond
          · exact ⟨List.mem_cons_of_mem _ h1, h2⟩
        · rintro ⟨h1, h2⟩
          rcases List.mem_cons.mp h1 with hw | h1
          · have hvw : m.value = w := by simpa using hw
            subst hvw
            rcases h2 with ⟨_, hmt, hsc⟩ | ⟨hnc, _, _, _⟩
            · left
              cases m
              simp_all
            · exfalso
              exact hnc (by simpa [Bool.or_eq_true] using hcond)
          · exact Or.inr ⟨h1, h2⟩

/-- Every raw categorical match is `contains`/1.0 or `fuzzy`/0.8. -/
theorem categoricalRawMatches_classified (t : List Char) (values : List (Option String))
    (m : ValueMatch) (hm : m ∈ categoricalRawMatches t values) :
    (m.match_type = "contains" ∧ m.score = ⟨10, 1⟩) ∨
    (m.match_type = "fuzzy" ∧ m.score = ⟨8, 1⟩) := by
  rcases (mem_categoricalRawMatches t values m).mp hm with ⟨_, ⟨_, h1, h2⟩ | ⟨_, _, h1, h2⟩⟩
  · exact Or.inl ⟨h1, h2⟩
  · exact Or.inr ⟨h1, h2⟩

/-- C6: in a categorical-strategy value search, a value is reported with
match type `contains` and score 1.0 exactly when the search term and the
value contain one another case-insensitively (in either direction), and
otherwise reported with match type `fuzzy` and score 0.8 exactly when the
abbreviation table or the shared-3-character-substring heuristic (both
lengths > 3) fires; the returned list is sorted by score descending, every
returned match comes from that scan, and no `fuzzy` match ever precedes a
`contains` match. -/
theorem categorical_search_classification (term : String) (values : List (Option String))
    (limit : Nat) :
    (∀ v : String,
      ((⟨v, "contains", ⟨10, 1⟩⟩ : ValueMatch)
          ∈ categoricalRawMatches (pyLowerL term.data) values ↔
        some v ∈ values ∧
          (containsL (pyLowerL v.data) (pyLowerL term.data) ∨
           containsL (pyLowerL term.data) (pyLowerL v.data))) ∧
      ((⟨v, "fuzzy", ⟨8, 1⟩⟩ : ValueMatch)
          ∈ categoricalRawMatches (pyLowerL term.data) values ↔
        some v ∈ values ∧
          ¬(containsL (pyLowerL v.data) (pyLowerL term.data) ∨
            containsL (pyLowerL term.data) (pyLowerL v.data)) ∧
          _fuzzy_match (pyLowerL term.data) (pyLowerL v.data) = true)) ∧
    (∀ m ∈ search_by_index_categorical term values limit,
      m ∈ categoricalRawMatches (pyLowerL term.data) values) ∧
    (search_by_index_categorical term values limit).Pairwise scoreGeRel ∧
    (search_by_index_categorical term values limit).Pairwise
      (fun a b => ¬(a.match_type = "fuzzy" ∧ b.match_type = "contains")) := by
  have hsub : ∀ m ∈ search_by_index_categorical term values limit,
      m ∈ categoricalRawMatches (pyLowerL term.data) values := by
    intro m hm
    have h1 : m ∈ sortByScoreDesc (categoricalRawMatches (pyLowerL term.data) values) :=
      List.mem_of_mem_take hm
    exact mem_sortByScoreDesc.mp h1
  have hsorted : (search_by_index_categorical term values limit).Pairwise scoreGeRel :=
    List.Pairwise.sublist (List.take_sublist _ _)
      (sortByScoreDesc_sorted (categoricalRawMatches (pyLowerL term.data) values))
  refine ⟨?_, hsub, hsorted, ?_⟩
  · intro v
    constructor
    · rw [mem_categoricalRawMatches]
      simp
    · rw [mem_categoricalRawMatches]
      simp
  · refine hsorted.imp_of_mem ?_
    intro a b ha hb hge
    rintro ⟨hfa, hcb⟩
    have hca := categoricalRawMatches_classified _ _ _ (hsub a ha)
    have hcb2 := categoricalRawMatches_classified _ _ _ (hsub b hb)
    rcases hca with ⟨hmt, _⟩ | ⟨_, hsa⟩
    · rw [hfa] at hmt; exact absurd hmt (by decide)
    · rcases hcb2 with ⟨_, hsb⟩ | ⟨hmt, _⟩
      · simp only [scoreGeRel, hsa, hsb] at hge
        exact absurd hge (by decide)
      · rw [hcb] at hmt; exact absurd hmt (by decide)

/-- Witness for C6: the fuzzy abbreviation match for "NYC" against a stored
"New York" list, obtained through the classification theorem. -/
theorem categorical_search_classification_witness :
    (⟨"New York", "fuzzy", ⟨8, 1⟩⟩ : ValueMatch)
      ∈ categoricalRawMatches (pyLowerL "NYC".data) [some "New York"] :=
  ((categorical_search_classification "NYC" [some "New York"] 10).1 "New York").2.mpr
    (by refine ⟨by decide, by decide, by decide⟩)

/-! ### Claim C1 -/

theorem optStrTruthy_of_length (a : String) (h : 0 < a.data.length) :
    optStrTruthy (some a) = true := by
  cases hd : a.data with
  | nil => rw [hd] at h; simp at h
  | cons c r => simp [optStrTruthy, hd]

theorem optStrTruthy_eq_false_iff (x : String) :
    optStrTruthy (some x) = false ↔ x = "" := by
  simp only [optStrTruthy, Bool.not_eq_false', List.isEmpty_iff]
  constructor
  · intro h
    cases x
    simp at h
    simp [h]
  · intro h
    simp [h]

theorem format_error_response_truthy (q sql err : String) :
    optStrTruthy (some (format_error_response q sql err)) = true := by
  apply optStrTruthy_of_length
  simp [format_error_response, String.data_append, List.length_append]

theorem explainResponse_truthy (sql explanation : String) (data : List (List Cell))
    (columns : List String) (rowCount : Nat) :
    optStrTruthy (some (explainResponse sql explanation data columns rowCount)) = true := by
  apply optStrTruthy_of_length
  simp [explainResponse, String.data_append, List.length_append]

theorem should_retry_end_of_truthy (s : AgentState) (h : optStrTruthy s.response = true) :
    should_retry_generate s = "end" := by
  simp only [should_retry_generate, h]
  split <;> rfl

theorem should_retry_gen_iff (s : AgentState) :
    should_retry_generate s = "generate" ↔
      optStrTruthy s.last_sql_error = true ∧ 0 < s.sql_attempts ∧
        s.sql_attempts < MAX_SQL_RETRIES ∧ optStrTruthy s.response = false := by
  simp only [should_retry_generate]
  by_cases h1 : (optStrTruthy s.last_sql_error && decide (0 < s.sql_attempts) &&
      decide (s.sql_attempts < MAX_SQL_RETRIES)) = true
  · rw [if_pos h1]
    simp only [Bool.and_eq_true, decide_eq_true_eq] at h1
    by_cases h2 : optStrTruthy s.response = false
    · rw [h2]
      simp [h1.1.1, h1.1.2, h1.2, h2]
    · have h2t : optStrTruthy s.response = true := by
        cases hx : optStrTruthy s.response
        · exact absurd hx h2
        · rfl
      rw [h2t]
      simp [h2t]
  · rw [if_neg h1]
    simp only [Bool.and_eq_true, decide_eq_true_eq] at h1
    constructor
    · intro hc; exact absurd hc (by decide)
    · rintro ⟨a, b, c, _⟩
      exact absurd ⟨⟨a, b⟩, c⟩ h1

/-- The retry transition the code actually takes on a retryable executor
error with attempts remaining (the extracted SQL must be Python-truthy,
i.e. non-empty, or the `if not sql:` error path runs instead). -/
def errorRetryScenario (llm : Except String String) (exec : String → ExecReturn)
    (s : AgentState) : Prop :=
  ∃ content sql, llm = Except.ok content ∧
    extract_sql (pyStrip (stripThink content)) = some sql ∧ sql.data ≠ [] ∧
    optList s.relevant_tables ≠ [] ∧
    (exec sql).status = "error" ∧ retryableErrorMsg (exec sql).message = true ∧
    s.sql_attempts < MAX_SQL_RETRIES - 1

/-- The unintended second retry trigger: a successful execution whose
non-explain CSV serialization is the empty string (Python-falsy) while an
earlier error retry is still in flight. -/
def emptyCsvRetryScenario (llm : Except String String) (exec : String → ExecReturn)
    (s : AgentState) : Prop :=
  ∃ content sql, llm = Except.ok content ∧
    extract_sql (pyStrip (stripThink content)) = some sql ∧ sql.data ≠ [] ∧
    optList s.relevant_tables ≠ [] ∧
    (exec sql).status ≠ "error" ∧ s.explain_mode = false ∧
    rows_to_csv (exec sql).columns (exec sql).rows = "" ∧
    optStrTruthy s.last_sql_error = true ∧ 0 < s.sql_attempts ∧
    s.sql_attempts < MAX_SQL_RETRIES

/-- C1 (amended): for every completed GENERATE invocation entered with no
response set, the workflow transitions GENERATE → GENERATE iff a non-empty
(Python-truthy) SQL statement was extracted — an empty extraction takes the
non-retryable "Could not generate valid SQL" path without calling the
executor — and EITHER the executor returned an error whose message contains
"syntax"/"column"/"relation" case-insensitively and `sql_attempts <
MAX_SQL_RETRIES - 1` (the claimed condition), OR — an extra case the retry
test's Python truthiness admits — the executor succeeded but the
non-explain CSV serialization of the result is the empty string while an
earlier error retry is in flight (`last_sql_error` truthy, `0 <
sql_attempts < MAX_SQL_RETRIES`). `sql_attempts` is incremented by exactly
1 in the first case and only there; it is never changed otherwise. -/
theorem generate_retry_routing (llm : Except String String) (exec : String → ExecReturn)
    (explText : String) (s : AgentState) (hresp : s.response = none) :
    (should_retry_generate (generate_node llm exec explText s).state = "generate" ↔
      errorRetryScenario llm exec s ∨ emptyCsvRetryScenario llm exec s) ∧
    ((generate_node llm exec explText s).state.sql_attempts = s.sql_attempts + 1 ↔
      errorRetryScenario llm exec s) ∧
    ((generate_node llm exec explText s).state.sql_attempts = s.sql_attempts ∨
     (generate_node llm exec explText s).state.sql_attempts = s.sql_attempts + 1) := by
  have hrespF : optStrTruthy s.response = false := by rw [hresp]; rfl
  have hgr : (s.intent == some "GREETING" && optStrTruthy s.response) = false := by
    rw [hrespF]; exact Bool.and_false _
  by_cases hrel : (optList s.relevant_tables).isEmpty
  · have hrelE : optList s.relevant_tables = [] := List.isEmpty_iff.mp hrel
    have hgen : generate_node llm exec explText s
        = ⟨{s with response := some "I couldn't find any relevant tables for your question.",
                   error := some "No tables to query"}, false, false⟩ := by
      simp [generate_node, hgr, hrel]
    rw [hgen]
    have hend : should_retry_generate
        ({s with response := some "I couldn't find any relevant tables for your question.",
                 error := some "No tables to query"} : AgentState) = "end" :=
      should_retry_end_of_truthy _ (optStrTruthy_lit _ (by decide))
    refine ⟨?_, ?_, Or.inl rfl⟩
    · rw [hend]
      constructor
      · intro h; exact absurd h (by decide)
      · rintro (⟨c, q, _, _, _, hne, _⟩ | ⟨c, q, _, _, _, hne, _⟩) <;> exact absurd hrelE hne
    · constructor
      · intro h
        exfalso
        simp at h
      · rintro ⟨c, q, _, _, _, hne, _⟩; exact absurd hrelE hne
  · have hrelNe : optList s.relevant_tables ≠ [] := by
      intro h; exact hrel (List.isEmpty_iff.mpr h)
    rcases llm with e | content
    · have hgen : generate_node (Except.error e) exec explText s
          = ⟨{s with error := some e,
                     response := some ("Error generating response: " ++ e)}, true, false⟩ := by
        simp [generate_node, hgr, hrel]
      rw [hgen]
      have hend : should_retry_generate
          ({s with error := some e,
                   response := some ("Error generating response: " ++ e)} : AgentState)
          = "end" :=
        should_retry_end_of_truthy _ (optStrTruthy_append_left _ _ (by decide))
      refine ⟨?_, ?_, Or.inl rfl⟩
      · rw [hend]
        constructor
        · intro h; exact absurd h (by decide)
        · rintro (⟨c, q, hc, _⟩ | ⟨c, q, hc, _⟩) <;> cases hc
      · constructor
        · intro h; exfalso; simp at h
        · rintro ⟨c, q, hc, _⟩; cases hc
    · cases hex : extract_sql (pyStrip (stripThink content)) with
      | none =>
        have hgen : generate_node (Except.ok content) exec explText s
            = ⟨{s with error := some "Could not generate valid SQL",
                       response := some "I couldn't generate a valid SQL query for your question."},
               true, false⟩ := by
          simp [generate_node, hgr, hrel, hex]
        rw [hgen]
        have hend : should_retry_generate
            ({s with error := some "Could not generate valid SQL",
                     response := some "I couldn't generate a valid SQL query for your question."} :
              AgentState) = "end" :=
          should_retry_end_of_truthy _ (optStrTruthy_lit _ (by decide))
        refine ⟨?_, ?_, Or.inl rfl⟩
        · rw [hend]
          constructor
          · intro h; exact absurd h (by decide)
          · rintro (⟨c, q, hc, hq, _⟩ | ⟨c, q, hc, hq, _⟩) <;>
              (cases hc; rw [hex] at hq; cases hq)
        · constructor
          · intro h; exfalso; simp at h
          · rintro ⟨c, q, hc, hq, _⟩
            cases hc; rw [hex] at hq; cases hq
      | some sql =>
        by_cases hsql : sql.data.isEmpty
        · have hsqlE : sql.data = [] := List.isEmpty_iff.mp hsql
          have hgen : generate_node (Except.ok content) exec explText s
              = ⟨{s with error := some "Could not generate valid SQL",
                         response := some "I couldn't generate a valid SQL query for your question."},
                 true, false⟩ := by
            simp [generate_node, hgr, hrel, hex, hsql]
          rw [hgen]
          have hend : should_retry_generate
              ({s with error := some "Could not generate valid SQL",
                       response := some "I couldn't generate a valid SQL query for your question."} :
                AgentState) = "end" :=
            should_retry_end_of_truthy _ (optStrTruthy_lit _ (by decide))
          refine ⟨?_, ?_, Or.inl rfl⟩
          · rw [hend]
            constructor
            · intro h; exact absurd h (by decide)
            · rintro (⟨c, q, hc, hq, hqne, _⟩ | ⟨c, q, hc, hq, hqne, _⟩) <;>
                (cases hc; rw [hex] at hq; cases hq; exact (hqne hsqlE).elim)
          · constructor
            · intro h; exfalso; simp at h
            · rintro ⟨c, q, hc, hq, hqne, _⟩
              cases hc; rw [hex] at hq; cases hq
              exact (hqne hsqlE).elim
        · have hsqlne : sql.data ≠ [] := fun hh => hsql (List.isEmpty_iff.mpr hh)
          by_cases herr : (exec sql).status == "error"
          · have herrP : (exec sql).status = "error" := by simpa using herr
            by_cases hcond : (retryableErrorMsg (exec sql).message &&
                decide (s.sql_attempts < MAX_SQL_RETRIES - 1)) = true
            · have hcondP := hcond
              simp only [Bool.and_eq_true, decide_eq_true_eq] at hcondP
              have hgen : generate_node (Except.ok content) exec explText s
                  = ⟨{s with generated_sql := some sql, sql_query := some sql,
                             sql_attempts := s.sql_attempts + 1,
                             last_sql_error := some (exec sql).message}, true, true⟩ := by
                simp [generate_node, hgr, hrel, hex, hsql, herr, hcond]
              rw [hgen]
              have hscenario : errorRetryScenario (Except.ok content) exec s :=
                ⟨content, sql, rfl, hex, hsqlne, hrelNe, herrP, hcondP.1, hcondP.2⟩
              refine ⟨?_, ?_, Or.inr rfl⟩
              · rw [should_retry_gen_iff]
                constructor
                · intro _; exact Or.inl hscenario
                · intro _
                  have ha2 := hcondP.2
                  refine ⟨retryable_msg_truthy _ hcondP.1, Nat.succ_pos _, ?_, hrespF⟩
                  show s.sql_attempts + 1 < MAX_SQL_RETRIES
                  simp only [MAX_SQL_RETRIES] at ha2 ⊢
                  omega
              · exact ⟨fun _ => hscenario, fun _ => rfl⟩
            · have hgen : generate_node (Except.ok content) exec explText s
                  = ⟨{s with generated_sql := some sql, sql_query := some sql,
                             error := some (exec sql).message,
                             response := some (format_error_response s.question sql
                               (exec sql).message)}, true, true⟩ := by
                simp only [generate_node, hgr, hrel, hex, hsql, herr, hcond]
                simp
              rw [hgen]
              have hend : should_retry_generate
                  ({s with generated_sql := some sql, sql_query := some sql,
                           error := some (exec sql).message,
                           response := some (format_error_response s.question sql
                             (exec sql).message)} : AgentState) = "end" :=
                should_retry_end_of_truthy _ (format_error_response_truthy _ _ _)
              refine ⟨?_, ?_, Or.inl rfl⟩
              · rw [hend]
                constructor
                · intro h; exact absurd h (by decide)
                · rintro (⟨c, q, hc, hq, _, _, he, hr, ha⟩ | ⟨c, q, hc, hq, _, _, he, _⟩)
                  · cases hc
                    rw [hex] at hq; cases hq
                    exact (hcond (by simp [hr, ha])).elim
                  · cases hc
                    rw [hex] at hq; cases hq
                    exact (he herrP).elim
              · constructor
                · intro h; exfalso; simp at h
                · rintro ⟨c, q, hc, hq, _, _, he, hr, ha⟩
                  cases hc
                  rw [hex] at hq; cases hq
                  exact absurd (by simp [hr, ha]) hcond
          · have herrP : (exec sql).status ≠ "error" := by simpa using herr
            by_cases hexp : s.explain_mode
            · have hgen : generate_node (Except.ok content) exec explText s
                  = ⟨{s with generated_sql := some sql, sql_query := some sql,
                             columns := some (exec sql).columns, data := some (exec sql).rows,
                             explanation := some explText,
                             response := some (explainResponse sql explText (exec sql).rows
                               (exec sql).columns (exec sql).row_count)}, true, true⟩ := by
                simp [generate_node, hgr, hrel, hex, hsql, herr, hexp]
              rw [hgen]
              have hend : should_retry_generate _ = "end" :=
                should_retry_end_of_truthy
                  ({s with generated_sql := some sql, sql_query := some sql,
                           columns := some (exec sql).columns, data := some (exec sql).rows,
                           explanation := some explText,
                           response := some (explainResponse sql explText (exec sql).rows
                             (exec sql).columns (exec sql).row_count)} : AgentState)
                  (explainResponse_truthy _ _ _ _ _)
              refine ⟨?_, ?_, Or.inl rfl⟩
              · rw [hend]
                constructor
                · intro h; exact absurd h (by decide)
                · rintro (⟨c, q, hc, hq, _, _, he, _⟩ | ⟨c, q, hc, hq, _, _, _, hm, _⟩)
                  · cases hc
                    rw [hex] at hq; cases hq
                    exact (herrP he).elim
                  · cases hc
                    rw [hex] at hq; cases hq
                    rw [hexp] at hm
                    cases hm
              · constructor
                · intro h; exfalso; simp at h
                · rintro ⟨c, q, hc, hq, _, _, he, _⟩
                  cases hc
                  rw [hex] at hq; cases hq
                  exact absurd he herrP
            · have hexpF : s.explain_mode = false := by
                cases hx : s.explain_mode
                · rfl
                · exact absurd hx hexp
              have hgen : generate_node (Except.ok content) exec explText s
                  = ⟨{s with generated_sql := some sql, sql_query := some sql,
                             columns := some (exec sql).columns, data := some (exec sql).rows,
                             response := some (rows_to_csv (exec sql).columns (exec sql).rows)},
                     true, true⟩ := by
                simp [generate_node, hgr, hrel, hex, hsql, herr, hexpF]
              rw [hgen]
              refine ⟨?_, ?_, Or.inl rfl⟩
              · rw [should_retry_gen_iff]
                constructor
                · rintro ⟨hlast, hpos, hlt, hfalse⟩
                  refine Or.inr ⟨content, sql, rfl, hex, hsqlne, hrelNe, herrP, hexpF,
                    (optStrTruthy_eq_false_iff _).mp hfalse, hlast, hpos, hlt⟩
                · rintro (⟨c, q, hc, hq, _, _, he, _⟩ | ⟨c, q, hc, hq, _, _, _, _, hcsv, hlast, hpos, hlt⟩)
                  · cases hc
                    rw [hex] at hq; cases hq
                    exact absurd he herrP
                  · cases hc
                    rw [hex] at hq; cases hq
                    exact ⟨hlast, hpos, hlt, (optStrTruthy_eq_false_iff _).mpr hcsv⟩
              · constructor
                · intro h; exfalso; simp at h
                · rintro ⟨c, q, hc, hq, _, _, he, _⟩
                  cases hc
                  rw [hex] at hq; cases hq
                  exact absurd he herrP

/-- Mid-retry state and an executor that succeeds with zero rows, used for
the C1 counterexample. -/
def c1State : AgentState :=
  { initialState "q" 1 false with
      intent := some "Find data"
      relevant_tables := some [⟨"t", "public", some "doc", ⟨10, 1⟩⟩]
      sql_attempts := 1
      last_sql_error := some "syntax error at or near x" }

def c1Exec : String → ExecReturn :=
  fun _ => ⟨"success", "Query executed but returned no rows", [], [], 0, false⟩

/-- Counterexample for C1: a completed GENERATE invocation whose executor
call SUCCEEDED (no error at all) still transitions GENERATE → GENERATE,
because the zero-row non-explain CSV response is the empty string, which is
Python-falsy, while an earlier error retry is in flight. Hence the claimed
"retry iff retryable executor error ∧ attempts remain ∧ no response" is
false. -/
theorem generate_retry_on_success_counterexample :
    should_retry_generate
      (generate_node (Except.ok "SELECT 1") c1Exec "e" c1State).state = "generate" ∧
    (c1Exec "SELECT 1").status = "success" ∧
    (generate_node (Except.ok "SELECT 1") c1Exec "e" c1State).state.sql_attempts
      = c1State.sql_attempts := by
  refine ⟨by decide, by decide, by decide⟩

/-- Witness for C1 (amended) at a concrete retryable-error input. -/
theorem generate_retry_routing_witness :
    should_retry_generate
      (generate_node (Except.ok "SELECT 1")
        (fun _ => ⟨"error", "syntax error at or near y", [], [], 0, false⟩) "e"
        { initialState "q" 1 false with
            intent := some "Find data"
            relevant_tables := some [⟨"t", "public", some "doc", ⟨10, 1⟩⟩] }).state
      = "generate" :=
  (generate_retry_routing (Except.ok "SELECT 1")
    (fun _ => ⟨"error", "syntax error at or near y", [], [], 0, false⟩) "e"
    { initialState "q" 1 false with
        intent := some "Find data"
        relevant_tables := some [⟨"t", "public", some "doc", ⟨10, 1⟩⟩] }
    rfl).1.mpr
    (Or.inl ⟨"SELECT 1", "SELECT 1", rfl, by decide, by decide, by decide, rfl, by decide, by decide⟩)

/-! ### Claim C5 -/

/-- Modelled from the spec's words (§4.5, as amended): the first column, in
column-list order, that is judged a plausible host for the term's semantic
type AND whose value search yields any match; it contributes the single
best (first, best-first ordered) match, keyed `"table.column"`. -/
def specFirstColumnMatch (oracle : String → String → String → SearchIndexResult)
    (tname term ltype : String) : List ColumnInsight → Option (String × ResolvedEntry)
  | [] => none
  | col :: rest =>
    let candidate :=
      if columnQualifies ltype col then
        match (oracle tname col.column_name term).«matches»,
            (oracle tname col.column_name term).status == "success" with
        | best :: _, true =>
          some (tname ++ "." ++ col.column_name,
            (⟨term, best.value, best.match_type, best.score⟩ : ResolvedEntry))
        | _, _ => none
      else none
    match candidate with
    | some p => some p
    | none => specFirstColumnMatch oracle tname term ltype rest

/-- Modelled from the spec's words (§4.5, as amended): scan tables in list
order; each table contributes at most its first qualifying matching column;
after each table the scan for this term is abandoned when the term occurs in
the textual rendering of the values resolved so far (in particular right
after the term itself is resolved). -/
def specScanTables (oracle : String → String → String → SearchIndexResult)
    (term ltype : String) :
    List TableInsight → List (String × ResolvedEntry) → List (String × ResolvedEntry)
  | [], resolved => resolved
  | t :: rest, resolved =>
    let r1 := match specFirstColumnMatch oracle t.table_name term ltype t.columns with
      | some p => dictSet p.1 p.2 resolved
      | none => resolved
    if containsS (reprResolvedValues r1) term then r1
    else specScanTables oracle term ltype rest r1

/-- Modelled from the spec's words (§4.5, as amended): process the extracted
terms in order, skipping empty ones, each against the full table scan. -/
def specResolveValuesAmended (oracle : String → String → String → SearchIndexResult)
    (terms : List TermInfo) (insights : List TableInsight) :
    List (String × ResolvedEntry) :=
  terms.foldl (fun resolved ti =>
    if ti.term == "" then resolved
    else specScanTables oracle ti.term (pyLower ti.likely_column_type) insights resolved) []

theorem searchColumnsLoop_fst_eq (oracle : String → String → String → SearchIndexResult)
    (tname term ltype : String) (cols : List ColumnInsight)
    (resolved : List (String × ResolvedEntry)) :
    (searchColumnsLoop oracle tname term ltype cols resolved).1
      = match specFirstColumnMatch oracle tname term ltype cols with
        | some p => dictSet p.1 p.2 resolved
        | none => resolved := by
  induction cols generalizing resolved with
  | nil => simp [searchColumnsLoop, specFirstColumnMatch]
  | cons col rest ih =>
    by_cases hq : columnQualifies ltype col
    · rcases hm : (oracle tname col.column_name term).«matches» with _ | ⟨best, more⟩
      · cases hs : ((oracle tname col.column_name term).status == "success") <;>
          simp [searchColumnsLoop, specFirstColumnMatch, hq, hm, hs, ih]
      · cases hs : ((oracle tname col.column_name term).status == "success") <;>
          simp [searchColumnsLoop, specFirstColumnMatch, hq, hm, hs, ih]
    · simp [searchColumnsLoop, specFirstColumnMatch, hq, ih]

theorem searchTablesLoop_fst_eq (oracle : String → String → String → SearchIndexResult)
    (term ltype : String) (tables : List TableInsight)
    (resolved : List (String × ResolvedEntry)) :
    (searchTablesLoop oracle term ltype tables resolved).1
      = specScanTables oracle term ltype tables resolved := by
  induction tables generalizing resolved with
  | nil => simp [searchTablesLoop, specScanTables]
  | cons t rest ih =>
    simp only [searchTablesLoop, specScanTables]
    rw [searchColumnsLoop_fst_eq]
    split <;> simp [ih]

theorem searchTermsLoop_fst_eq (oracle : String → String → String → SearchIndexResult)
    (insights : List TableInsight) (terms : List TermInfo)
    (resolved : List (String × ResolvedEntry)) :
    (searchTermsLoop oracle insights terms resolved).1
      = terms.foldl (fun resolved ti =>
          if ti.term == "" then resolved
          else specScanTables oracle ti.term (pyLower ti.likely_column_type) insights resolved)
          resolved := by
  induction terms generalizing resolved with
  | nil => simp [searchTermsLoop]
  | cons ti rest ih =>
    by_cases hz : ti.term == ""
    · have hz2 : ti.term = "" := by simpa using hz
      simp [searchTermsLoop, hz, hz2, ih]
    · simp only [searchTermsLoop, hz, List.foldl_cons, Bool.false_eq_true, if_false]
      rw [ih, searchTablesLoop_fst_eq]

/-- C5 (amended): on a non-greeting state, Resolve Values returns the empty
resolved map without a single value search when there are no terms or no
insights; otherwise its resolved map is exactly the deterministic
table-order/column-order scan in which each term takes the single best
match of its first qualifying matching column, and the per-term table scan
is additionally abandoned as soon as the term occurs in the textual
rendering (`str(resolved.values())`) of the entries resolved so far — in
particular right after the term itself is resolved. A term the scan never
matches is simply absent: the error and response fields are unchanged. -/
theorem search_values_scan_amended (oracle : String → String → String → SearchIndexResult)
    (s : AgentState) (hintent : s.intent ≠ some "GREETING") :
    ((optList s.searchable_terms = [] ∨ optList s.table_insights = []) →
      (search_values_node oracle s).state.resolved_values = some [] ∧
      (search_values_node oracle s).calls = []) ∧
    (optList s.searchable_terms ≠ [] → optList s.table_insights ≠ [] →
      (search_values_node oracle s).state.resolved_values
        = some (specResolveValuesAmended oracle (optList s.searchable_terms)
            (optList s.table_insights))) ∧
    (search_values_node oracle s).state.error = s.error ∧
    (search_values_node oracle s).state.response = s.response := by
  have hbeq : (s.intent == some "GREETING") = false := by simp [hintent]
  by_cases hempty : (optList s.searchable_terms).isEmpty || (optList s.table_insights).isEmpty
  · have hgen : search_values_node oracle s = ⟨{s with resolved_values := some []}, []⟩ := by
      simp only [search_values_node, hbeq, Bool.false_eq_true, if_false]
      rw [if_pos hempty]
    rw [hgen]
    refine ⟨fun _ => ⟨rfl, rfl⟩, ?_, rfl, rfl⟩
    intro h1 h2
    exfalso
    rcases Bool.or_eq_true _ _ |>.mp hempty with h | h
    · exact h1 (List.isEmpty_iff.mp h)
    · exact h2 (List.isEmpty_iff.mp h)
  · have hgen : search_values_node oracle s
        = ⟨{s with resolved_values := some (searchTermsLoop oracle (optList s.table_insights)
              (optList s.searchable_terms) []).1},
           (searchTermsLoop oracle (optList s.table_insights)
              (optList s.searchable_terms) []).2⟩ := by
      simp only [search_values_node, hbeq, Bool.false_eq_true, if_false]
      rw [if_neg (by simpa using hempty)]
    rw [hgen]
    refine ⟨?_, ?_, rfl, rfl⟩
    · rintro (h | h)
      · exfalso; exact hempty (by simp [h])
      · exfalso; exact hempty (by simp [h])
    · intro _ _
      rw [searchTermsLoop_fst_eq]
      rfl

/-- The two-table metadata, terms, state and value-search oracle of the C5
counterexample. -/
def c5Insights : List TableInsight :=
  [⟨"T1", [⟨"status", none, some "categorical"⟩]⟩,
   ⟨"T2", [⟨"name", none, some "categorical"⟩]⟩]

def c5Terms : List TermInfo := [⟨"pending", "status"⟩, ⟨"score", "name"⟩]

def c5Oracle : String → String → String → SearchIndexResult :=
  fun t c term =>
    if t == "T1" && c == "status" && term == "pending" then
      ⟨"success", [⟨"pending", "contains", ⟨10, 1⟩⟩]⟩
    else if t == "T2" && c == "name" && term == "score" then
      ⟨"success", [⟨"score high", "contains", ⟨10, 1⟩⟩]⟩
    else ⟨"no_matches", []⟩

def c5State : AgentState :=
  { initialState "q" 1 true with
      intent := some "Find data"
      searchable_terms := some c5Terms
      table_insights := some c5Insights }

/-- Counterexample for C5: for the term "score", the qualifying column
`T2.name` would yield a match, yet the scan never invokes value search on
it and leaves the term unresolved — the textual-rendering test
`"score" in str(resolved.values())` (the literal dict key `'score'` appears
in the rendering of the entry already resolved for "pending") aborts the
table scan after `T1`. So the claimed "scan ... invokes value search on
each qualifying column, stops at the first column yielding any match" is
false. -/
theorem search_values_early_stop_counterexample :
    (search_values_node c5Oracle c5State).state.resolved_values
      = some [("T1.status", ⟨"pending", "pending", "contains", ⟨10, 1⟩⟩)] ∧
    columnQualifies "name" ⟨"name", none, some "categorical"⟩ = true ∧
    (c5Oracle "T2" "name" "score").status = "success" ∧
    (c5Oracle "T2" "name" "score").«matches» ≠ [] ∧
    ((search_values_node c5Oracle c5State).calls.all
      (fun call => !(call == (("T2", "name", "score") : ValueCall)))) = true := by
  refine ⟨by decide, by decide, by decide, by decide, by decide⟩

/-- Witness for C5 (amended) at the counterexample inputs. -/
theorem search_values_scan_amended_witness :
    (search_values_node c5Oracle c5State).state.resolved_values
      = some (specResolveValuesAmended c5Oracle c5Terms c5Insights) :=
  (search_values_scan_amended c5Oracle c5State (by decide)).2.1
    (by decide) (by decide)

/-! ### Claim C4 -/

/-- Does the text contain a (code-semantics) statement boundary: a `;`
whose following whitespace run contains a newline, with a statement keyword
after the run? -/
def hasBoundary : List Char → Bool
  | [] => false
  | c :: rest => (c == ';' && isBoundaryAfterSemi rest) || hasBoundary rest

/-- The claim's looser reading of a boundary: a `;` followed by (any
non-empty) whitespace and a statement keyword — no newline required. -/
def specClaimBoundary : List Char → Bool
  | [] => false
  | c :: rest =>
    (c == ';' && !(rest.takeWhile isPySpace).isEmpty && kwAtStart (rest.dropWhile isPySpace))
      || specClaimBoundary rest

theorem startsWithL_nil (l : List Char) : startsWithL l [] = true := by
  cases l <;> rfl

theorem startsWithL_append (pre : List Char) :
    ∀ (x u : List Char), startsWithL x pre = true → startsWithL (x ++ u) pre = true := by
  induction pre with
  | nil => intro x u _; exact startsWithL_nil _
  | cons d ds ih =>
    intro x u h
    cases x with
    | nil => cases h
    | cons c cs =>
      simp only [startsWithL, Bool.and_eq_true] at h
      simpa [startsWithL, h.1] using ih cs u h.2

theorem ciStartsWithL_append (x u pre : List Char) (h : ciStartsWithL x pre = true) :
    ciStartsWithL (x ++ u) pre = true := by
  simp only [ciStartsWithL, pyLowerL, List.map_append] at h ⊢
  exact startsWithL_append _ _ _ h

theorem kwAtStart_append (x u : List Char) (h : kwAtStart x = true) :
    kwAtStart (x ++ u) = true := by
  simp only [kwAtStart, List.any_eq_true] at h ⊢
  rcases h with ⟨kw, hkw, hs⟩
  exact ⟨kw, hkw, ciStartsWithL_append x u kw hs⟩

theorem kwAtStart_nil : kwAtStart [] = false := by decide

theorem takeWhile_append_of_dropWhile_ne_nil (p : Char → Bool) :
    ∀ (t u : List Char), t.dropWhile p ≠ [] → (t ++ u).takeWhile p = t.takeWhile p := by
  intro t
  induction t with
  | nil => intro u h; simp [List.dropWhile] at h
  | cons c cs ih =>
    intro u h
    by_cases hc : p c
    · simp only [List.dropWhile, hc] at h
      simp only [List.cons_append, List.takeWhile_cons, hc]
      rw [ih u h]
    · simp only [List.cons_append, List.takeWhile_cons, hc]
      simp [hc]

theorem dropWhile_append_of_dropWhile_ne_nil (p : Char → Bool) :
    ∀ (t u : List Char), t.dropWhile p ≠ [] → (t ++ u).dropWhile p = t.dropWhile p ++ u := by
  intro t
  induction t with
  | nil => intro u h; simp [List.dropWhile] at h
  | cons c cs ih =>
    intro u h
    by_cases hc : p c
    · simp only [List.dropWhile, hc] at h
      simp only [List.cons_append, List.dropWhile_cons, hc, if_true]
      exact ih u h
    · simp only [List.cons_append, List.dropWhile_cons, hc]
      simp [hc]

theorem isBoundaryAfterSemi_append (t u : List Char) (h : isBoundaryAfterSemi t = true) :
    isBoundaryAfterSemi (t ++ u) = true := by
  simp only [isBoundaryAfterSemi, Bool.and_eq_true] at h
  have hne : t.dropWhile isPySpace ≠ [] := by
    intro hnil
    rw [hnil, kwAtStart_nil] at h
    exact Bool.false_ne_true h.2
  simp only [isBoundaryAfterSemi, Bool.and_eq_true]
  rw [takeWhile_append_of_dropWhile_ne_nil isPySpace t u hne,
    dropWhile_append_of_dropWhile_ne_nil isPySpace t u hne]
  exact ⟨h.1, kwAtStart_append _ u h.2⟩

theorem takeBeforeBoundary_prefix (l : List Char) :
    ∃ u, l = takeBeforeBoundary l ++ u := by
  induction l with
  | nil => exact ⟨[], rfl⟩
  | cons c rest ih =>
    by_cases h : (c == ';' && isBoundaryAfterSemi rest) = true
    · exact ⟨c :: rest, by simp [takeBeforeBoundary, h]⟩
    · rcases ih with ⟨u, hu⟩
      refine ⟨u, ?_⟩
      simp only [takeBeforeBoundary, h, Bool.false_eq_true, if_false, List.cons_append]
      exact congrArg (c :: ·) hu

theorem hasBoundary_takeBeforeBoundary (l : List Char) :
    hasBoundary (takeBeforeBoundary l) = false := by
  induction l with
  | nil => rfl
  | cons c rest ih =>
    by_cases h : (c == ';' && isBoundaryAfterSemi rest) = true
    · simp [takeBeforeBoundary, h, hasBoundary]
    · simp only [takeBeforeBoundary, h, Bool.false_eq_true, if_false, hasBoundary, ih,
        Bool.or_false]
      by_cases hc : c == ';'
      · simp only [hc, Bool.true_and]
        rw [Bool.eq_false_iff]
        intro hb
        rcases takeBeforeBoundary_prefix rest with ⟨u, hu⟩
        have := isBoundaryAfterSemi_append _ u hb
        rw [← hu] at this
        exact h (by simp [hc, this])
      · simp [hc]

theorem hasBoundary_append_right (m u : List Char) (h : hasBoundary m = true) :
    hasBoundary (m ++ u) = true := by
  induction m with
  | nil => cases h
  | cons c rest ih =>
    simp only [hasBoundary, Bool.or_eq_true, Bool.and_eq_true] at h
    rcases h with ⟨hc, hb⟩ | hrest
    · simp only [List.cons_append, hasBoundary, Bool.or_eq_true, Bool.and_eq_true]
      exact Or.inl ⟨hc, isBoundaryAfterSemi_append rest u hb⟩
    · simp only [List.cons_append, hasBoundary, Bool.or_eq_true]
      exact Or.inr (ih hrest)

theorem hasBoundary_append_left (v w : List Char) (h : hasBoundary w = true) :
    hasBoundary (v ++ w) = true := by
  induction v with
  | nil => simpa using h
  | cons c rest ih =>
    simp only [List.cons_append, hasBoundary, Bool.or_eq_true]
    exact Or.inr ih

theorem hasBoundary_of_infix (m l : List Char) (hm : hasBoundary m = true)
    (v u : List Char) (hl : l = v ++ m ++ u) : hasBoundary l = true := by
  subst hl
  rw [List.append_assoc]
  exact hasBoundary_append_left v (m ++ u) (hasBoundary_append_right m u hm)

theorem dropWhile_isSuffix (p : Char → Bool) (l : List Char) :
    ∃ v, l = v ++ l.dropWhile p := by
  induction l with
  | nil => exact ⟨[], rfl⟩
  | cons c rest ih =>
    by_cases hc : p c
    · rcases ih with ⟨v, hv⟩
      exact ⟨c :: v, by simp [List.dropWhile_cons, hc, ← hv]⟩
    · exact ⟨[], by simp [List.dropWhile_cons, hc]⟩

/-- `stripL l` is a contiguous infix of `l`. -/
theorem stripL_infix (l : List Char) : ∃ v u, l = v ++ stripL l ++ u := by
  rcases dropWhile_isSuffix isPySpace l with ⟨v, hv⟩
  rcases dropWhile_isSuffix isPySpace (l.dropWhile isPySpace).reverse with ⟨w, hw⟩
  refine ⟨v, w.reverse, ?_⟩
  have hmid : l.dropWhile isPySpace = stripL l ++ w.reverse := by
    have := congrArg List.reverse hw
    simpa [stripL, List.reverse_append] using this
  calc l = v ++ l.dropWhile isPySpace := hv
    _ = v ++ (stripL l ++ w.reverse) := by rw [hmid]
    _ = v ++ stripL l ++ w.reverse := by rw [List.append_assoc]

/-- The kept part after the one-semicolon strip is a prefix. -/
theorem stripOneSemi_prefix (l : List Char) : ∃ u, l = stripOneSemi l ++ u := by
  by_cases h : l.getLast? == some ';'
  · simp only [stripOneSemi, h, if_true]
    have hne : l ≠ [] := by
      intro hnil; rw [hnil] at h; simp at h
    refine ⟨[l.getLast hne], ?_⟩
    exact (List.dropLast_append_getLast hne).symm
  · exact ⟨[], by simp [stripOneSemi, h]⟩

theorem eq_dropLast_append_of_getLast? (l : List Char) (a : Char)
    (h : l.getLast? = some a) : l = l.dropLast ++ [a] := by
  have hne : l ≠ [] := by intro hnil; rw [hnil] at h; cases h
  have h2 := List.getLast?_eq_getLast l hne
  rw [h2] at h
  have h3 : l.getLast hne = a := by injection h
  rw [← h3]
  exact (List.dropLast_append_getLast hne).symm

/-- C4 (amended): the extracted statement never contains a statement
boundary in the code's sense — a semicolon whose following whitespace run
contains a newline, followed by a SELECT/WITH/INSERT/UPDATE/DELETE keyword
(a same-line `"; SELECT"` is NOT such a boundary and is kept); and exactly
one trailing semicolon is stripped, so the result still ends in a
semicolon exactly when the pre-strip candidate ended in two or more. -/
theorem extract_sql_single_statement (text : String) (s1 : List Char)
    (h : extractSqlCoreL text.data = some s1) :
    extract_sql text = some (String.mk (stripOneSemi s1)) ∧
    hasBoundary (stripOneSemi s1) = false ∧
    ((stripOneSemi s1).getLast? = some ';' → ∃ u, s1 = u ++ [';', ';']) := by
  refine ⟨by simp [extract_sql, h], ?_, ?_⟩
  · rcases hc : extractCandidate text.data with _ | sql
    · simp only [extractSqlCoreL, hc] at h; cases h
    · simp only [extractSqlCoreL, hc] at h
      by_cases hne : sql.isEmpty
      · rw [if_pos hne] at h; cases h
      · rw [if_neg hne] at h
        have hs1 : s1 = stripL (takeBeforeBoundary sql) := by injection h with h'; exact h'.symm
        subst hs1
        have h0 : hasBoundary (takeBeforeBoundary sql) = false :=
          hasBoundary_takeBeforeBoundary sql
        rcases stripL_infix (takeBeforeBoundary sql) with ⟨v, u, hvu⟩
        rcases stripOneSemi_prefix (stripL (takeBeforeBoundary sql)) with ⟨w, hw⟩
        rw [Bool.eq_false_iff]
        intro hb
        have hinfix : takeBeforeBoundary sql
            = v ++ stripOneSemi (stripL (takeBeforeBoundary sql)) ++ (w ++ u) := by
          calc takeBeforeBoundary sql = v ++ stripL (takeBeforeBoundary sql) ++ u := hvu
            _ = v ++ (stripOneSemi (stripL (takeBeforeBoundary sql)) ++ w) ++ u := by rw [← hw]
            _ = v ++ stripOneSemi (stripL (takeBeforeBoundary sql)) ++ (w ++ u) := by simp
        have := hasBoundary_of_infix _ _ hb v (w ++ u) hinfix
        rw [h0] at this
        cases this
  · intro hlast
    by_cases hs : (s1.getLast? == some ';') = true
    · have hdrop : stripOneSemi s1 = s1.dropLast := by simp [stripOneSemi, hs]
      rw [hdrop] at hlast
      have h1 : s1 = s1.dropLast ++ [';'] :=
        eq_dropLast_append_of_getLast? s1 ';' (by simpa using hs)
      have h2 : s1.dropLast = s1.dropLast.dropLast ++ [';'] :=
        eq_dropLast_append_of_getLast? s1.dropLast ';' hlast
      refine ⟨s1.dropLast.dropLast, ?_⟩
      calc s1 = s1.dropLast ++ [';'] := h1
        _ = (s1.dropLast.dropLast ++ [';']) ++ [';'] := by rw [← h2]
        _ = s1.dropLast.dropLast ++ [';', ';'] := by simp
    · have hid : stripOneSemi s1 = s1 := by simp [stripOneSemi, hs]
      rw [hid] at hlast
      exact absurd (by simp [hlast] : (s1.getLast? == some ';') = true) hs

/-- Counterexample for C4: a same-line `"; SELECT"` (semicolon, whitespace,
statement keyword — the claim's boundary) survives extraction, so the text
after such a boundary is NOT dropped; and a candidate ending in `";;"`
yields a statement that still ends in a semicolon. -/
theorem extract_sql_boundary_counterexample :
    extract_sql "```sql\nSELECT 1; SELECT 2\n```" = some "SELECT 1; SELECT 2" ∧
    specClaimBoundary "SELECT 1; SELECT 2".data = true ∧
    extract_sql "```\nSELECT 1;;\n```" = some "SELECT 1;" ∧
    "SELECT 1;".data.getLast? = some ';' := by
  refine ⟨by decide, by decide, by decide, by decide⟩

/-- Witness for C4 (amended): a fenced two-statement block separated by a
newline keeps only the first statement. -/
theorem extract_sql_single_statement_witness :
    extract_sql "```sql\nSELECT 1;\nSELECT 2;\n```"
      = some (String.mk (stripOneSemi "SELECT 1".data)) :=
  (extract_sql_single_statement "```sql\nSELECT 1;\nSELECT 2;\n```" "SELECT 1".data
    (by decide)).1

/-! ### Claim C8 -/

/-- A character that needs no CSV treatment. -/
def cleanChar (c : Char) : Bool := !(c == ',' || c == '"' || c == '\n')

/-- The string a text cell denotes, at `String` level. -/
def cellString : Cell → String
  | Cell.null => ""
  | Cell.str s => s
  | Cell.other r => r

theorem csvNeedsQuote_eq_false_iff (l : List Char) :
    csvNeedsQuote l = false ↔ l.all cleanChar = true := by
  simp [csvNeedsQuote, cleanChar, List.any_eq_false, List.all_eq_true]

/-- Consuming a run of clean characters in normal mode appends them to
the current field. -/
theorem parseCsvAux_clean_run (s : List Char) :
    ∀ (rest field : List Char) (rec : List (List Char)),
      s.all cleanChar = true →
      parseCsvAux (s ++ rest) CsvMode.normal field rec
        = parseCsvAux rest CsvMode.normal (field ++ s) rec := by
  induction s with
  | nil => intro rest field rec _; simp
  | cons c cs ih =>
    intro rest field rec hall
    simp only [List.all_cons, Bool.and_eq_true] at hall
    have hc := hall.1
    simp only [cleanChar, Bool.not_eq_true', Bool.or_eq_false_iff, beq_eq_false_iff_ne,
      ne_eq] at hc
    simp only [List.cons_append, parseCsvAux]
    rw [if_neg (by simp [hc.1.2]), if_neg (by simp [hc.1.1]), if_neg (by simp [hc.2])]
    show parseCsvAux (cs ++ rest) CsvMode.normal (field ++ [c]) rec
        = parseCsvAux rest CsvMode.normal (field ++ c :: cs) rec
    rw [ih rest (field ++ [c]) rec hall.2]
    simp

/-- Consuming a doubled-quote-escaped body in quoted mode appends the
unescaped text to the current field. -/
theorem parseCsvAux_quoted_body (s : List Char) :
    ∀ (rest field : List Char) (rec : List (List Char)),
      parseCsvAux (csvDoubleQuotes s ++ rest) CsvMode.quoted field rec
        = parseCsvAux rest CsvMode.quoted (field ++ s) rec := by
  induction s with
  | nil => intro rest field rec; simp [csvDoubleQuotes]
  | cons c cs ih =>
    intro rest field rec
    by_cases hc : c = '"'
    · subst hc
      calc parseCsvAux (csvDoubleQuotes ('"' :: cs) ++ rest) CsvMode.quoted field rec
          = parseCsvAux ('"' :: ('"' :: (csvDoubleQuotes cs ++ rest))) CsvMode.quoted field rec := by
            simp [csvDoubleQuotes]
        _ = parseCsvAux ('"' :: (csvDoubleQuotes cs ++ rest)) CsvMode.closing field rec := by
            simp [parseCsvAux]
        _ = parseCsvAux (csvDoubleQuotes cs ++ rest) CsvMode.quoted (field ++ ['"']) rec := by
            simp [parseCsvAux]
        _ = parseCsvAux rest CsvMode.quoted ((field ++ ['"']) ++ cs) rec := ih rest _ rec
        _ = parseCsvAux rest CsvMode.quoted (field ++ '"' :: cs) rec := by simp
    · calc parseCsvAux (csvDoubleQuotes (c :: cs) ++ rest) CsvMode.quoted field rec
          = parseCsvAux (c :: (csvDoubleQuotes cs ++ rest)) CsvMode.quoted field rec := by
            simp [csvDoubleQuotes, hc]
        _ = parseCsvAux (csvDoubleQuotes cs ++ rest) CsvMode.quoted (field ++ [c]) rec := by
            simp [parseCsvAux, hc]
        _ = parseCsvAux rest CsvMode.quoted ((field ++ [c]) ++ cs) rec := ih rest _ rec
        _ = parseCsvAux rest CsvMode.quoted (field ++ c :: cs) rec := by simp

/-- Parsing one escaped text cell followed by a field separator flushes
exactly the cell's string into the record. -/
theorem parseCsvAux_field_comma (cell : Cell) (htext : cellIsText cell = true)
    (rest : List Char) (rec : List (List Char)) :
    parseCsvAux (csvField cell ++ ',' :: rest) CsvMode.normal [] rec
      = parseCsvAux rest CsvMode.normal [] (rec ++ [decodedL cell]) := by
  cases cell with
  | other r => cases htext
  | null => simp [csvField, decodedL, parseCsvAux]
  | str s =>
    by_cases hq : csvNeedsQuote s.data
    · have hfield : csvField (Cell.str s) ++ ',' :: rest
          = '"' :: (csvDoubleQuotes s.data ++ ('"' :: (',' :: rest))) := by
        simp [csvField, hq]
      rw [hfield]
      calc parseCsvAux ('"' :: (csvDoubleQuotes s.data ++ ('"' :: (',' :: rest))))
            CsvMode.normal [] rec
          = parseCsvAux (csvDoubleQuotes s.data ++ ('"' :: (',' :: rest)))
              CsvMode.quoted [] rec := by simp [parseCsvAux]
        _ = parseCsvAux ('"' :: (',' :: rest)) CsvMode.quoted s.data rec := by
            rw [parseCsvAux_quoted_body]; simp
        _ = parseCsvAux (',' :: rest) CsvMode.closing s.data rec := by simp [parseCsvAux]
        _ = parseCsvAux rest CsvMode.normal [] (rec ++ [s.data]) := by simp [parseCsvAux]
    · have hclean : s.data.all cleanChar = true :=
        (csvNeedsQuote_eq_false_iff s.data).mp (by simpa using hq)
      have hfield : csvField (Cell.str s) = s.data := by simp [csvField, hq]
      rw [hfield, parseCsvAux_clean_run s.data (',' :: rest) [] rec hclean]
      simp [decodedL, parseCsvAux]

/-- Parsing one escaped text cell followed by a newline flushes the record
and emits it. -/
theorem parseCsvAux_field_newline (cell : Cell) (htext : cellIsText cell = true)
    (rest : List Char) (rec : List (List Char)) :
    parseCsvAux (csvField cell ++ '\n' :: rest) CsvMode.normal [] rec
      = (rec ++ [decodedL cell]) :: parseCsvAux rest CsvMode.normal [] [] := by
  cases cell with
  | other r => cases htext
  | null => simp [csvField, decodedL, parseCsvAux]
  | str s =>
    by_cases hq : csvNeedsQuote s.data
    · have hfield : csvField (Cell.str s) ++ '\n' :: rest
          = '"' :: (csvDoubleQuotes s.data ++ ('"' :: ('\n' :: rest))) := by
        simp [csvField, hq]
      rw [hfield]
      calc parseCsvAux ('"' :: (csvDoubleQuotes s.data ++ ('"' :: ('\n' :: rest))))
            CsvMode.normal [] rec
          = parseCsvAux (csvDoubleQuotes s.data ++ ('"' :: ('\n' :: rest)))
              CsvMode.quoted [] rec := by simp [parseCsvAux]
        _ = parseCsvAux ('"' :: ('\n' :: rest)) CsvMode.quoted s.data rec := by
            rw [parseCsvAux_quoted_body]; simp
        _ = parseCsvAux ('\n' :: rest) CsvMode.closing s.data rec := by simp [parseCsvAux]
        _ = (rec ++ [s.data]) :: parseCsvAux rest CsvMode.normal [] [] := by simp [parseCsvAux]
    · have hclean : s.data.all cleanChar = true :=
        (csvNeedsQuote_eq_false_iff s.data).mp (by simpa using hq)
      have hfield : csvField (Cell.str s) = s.data := by simp [csvField, hq]
      rw [hfield, parseCsvAux_clean_run s.data ('\n' :: rest) [] rec hclean]
      simp [decodedL, parseCsvAux]

/-- Parsing one escaped text cell at the end of input flushes the record. -/
theorem parseCsvAux_field_end (cell : Cell) (htext : cellIsText cell = true)
    (rec : List (List Char)) :
    parseCsvAux (csvField cell) CsvMode.normal [] rec = [rec ++ [decodedL cell]] := by
  cases cell with
  | other r => cases htext
  | null => simp [csvField, decodedL, parseCsvAux]
  | str s =>
    by_cases hq : csvNeedsQuote s.data
    · have hfield : csvField (Cell.str s)
          = '"' :: (csvDoubleQuotes s.data ++ ['"']) := by
        simp [csvField, hq]
      rw [hfield]
      calc parseCsvAux ('"' :: (csvDoubleQuotes s.data ++ ['"'])) CsvMode.normal [] rec
          = parseCsvAux (csvDoubleQuotes s.data ++ ['"']) CsvMode.quoted [] rec := by
            simp [parseCsvAux]
        _ = parseCsvAux ['"'] CsvMode.quoted s.data rec := by
            rw [parseCsvAux_quoted_body]; simp
        _ = parseCsvAux [] CsvMode.closing s.data rec := by simp [parseCsvAux]
        _ = [rec ++ [s.data]] := by simp [parseCsvAux]
    · have hclean : s.data.all cleanChar = true :=
        (csvNeedsQuote_eq_false_iff s.data).mp (by simpa using hq)
      have hfield : csvField (Cell.str s) = s.data := by simp [csvField, hq]
      have h2 := parseCsvAux_clean_run s.data [] [] rec hclean
      simp only [List.append_nil] at h2
      rw [hfield, h2]
      simp [decodedL, parseCsvAux]

/-- Parsing one serialized record followed by a newline emits exactly the
decoded record. -/
theorem parseCsvAux_record (cells : List Cell) (hne : cells ≠ [])
    (htext : ∀ cell ∈ cells, cellIsText cell = true) :
    (∀ (rest : List Char) (rec : List (List Char)),
      parseCsvAux (rowLineL cells ++ '\n' :: rest) CsvMode.normal [] rec
        = (rec ++ cells.map decodedL) :: parseCsvAux rest CsvMode.normal [] []) ∧
    (∀ rec : List (List Char),
      parseCsvAux (rowLineL cells) CsvMode.normal [] rec = [rec ++ cells.map decodedL]) := by
  induction cells with
  | nil => exact absurd rfl hne
  | cons c cs ih =>
    cases cs with
    | nil =>
      have hc := htext c (List.mem_cons_self _ _)
      have h1 : rowLineL [c] = csvField c := by simp [rowLineL, joinWith]
      constructor
      · intro rest rec
        rw [h1, parseCsvAux_field_newline c hc rest rec]
        simp
      · intro rec
        rw [h1, parseCsvAux_field_end c hc rec]
        simp
    | cons c2 cs2 =>
      have hc := htext c (List.mem_cons_self _ _)
      have ihrest := ih (by simp) (fun cell hcell => htext cell (List.mem_cons_of_mem _ hcell))
      have hline : rowLineL (c :: c2 :: cs2) = csvField c ++ ',' :: rowLineL (c2 :: cs2) := by
        simp [rowLineL, joinWith, List.map_cons]
      constructor
      · intro rest rec
        rw [hline]
        have hassoc : (csvField c ++ ',' :: rowLineL (c2 :: cs2)) ++ '\n' :: rest
            = csvField c ++ ',' :: (rowLineL (c2 :: cs2) ++ '\n' :: rest) := by simp
        rw [hassoc, parseCsvAux_field_comma c hc _ rec, ihrest.1 rest (rec ++ [decodedL c])]
        simp
      · intro rec
        rw [hline, parseCsvAux_field_comma c hc _ rec, ihrest.2 (rec ++ [decodedL c])]
        simp

/-- Parsing a newline-joined sequence of serialized records reconstructs
every record. -/
theorem parseCsvAux_records (rows : List (List Cell)) (hne : rows ≠ [])
    (hrows : ∀ row ∈ rows, row ≠ [] ∧ ∀ cell ∈ row, cellIsText cell = true) :
    parseCsvAux (joinWith ['\n'] (rows.map rowLineL)) CsvMode.normal [] []
      = rows.map (fun r => r.map decodedL) := by
  induction rows with
  | nil => exact absurd rfl hne
  | cons r rs ih =>
    rcases hrows r (List.mem_cons_self _ _) with ⟨hrne, hrtext⟩
    cases rs with
    | nil =>
      have h1 : joinWith ['\n'] ([r].map rowLineL) = rowLineL r := by simp [joinWith]
      rw [h1, (parseCsvAux_record r hrne hrtext).2 []]
      simp
    | cons r2 rs2 =>
      have h1 : joinWith ['\n'] ((r :: r2 :: rs2).map rowLineL)
          = rowLineL r ++ '\n' :: joinWith ['\n'] ((r2 :: rs2).map rowLineL) := by
        simp [joinWith, List.map_cons]
      rw [h1, (parseCsvAux_record r hrne hrtext).1 _ []]
      rw [ih (by simp) (fun row hrow => hrows row (List.mem_cons_of_mem _ hrow))]
      simp

/-- C8 (amended): when the column names are free of delimiter, quote and
newline characters and every row value is a string or null, parsing the
produced CSV text reconstructs the header and every row exactly (nulls as
empty strings) — in particular the number of columns of every row. A
non-string value is written `str(val)` WITHOUT quoting (see the
counterexample), which is why rows are restricted to text cells. -/
theorem rows_to_csv_roundtrip (columns : List String) (rows : List (List Cell))
    (hcols : columns ≠ [] ∧ ∀ c ∈ columns, c.data.all cleanChar = true)
    (hrows : ∀ row ∈ rows, row ≠ [] ∧ ∀ cell ∈ row, cellIsText cell = true) :
    parseCsv (rows_to_csv columns rows)
      = columns :: rows.map (fun row => row.map cellString) ∧
    (parseCsv (rows_to_csv columns rows)).map List.length
      = columns.length :: rows.map List.length := by
  have hheader : joinWith [','] (columns.map String.data)
      = rowLineL (columns.map Cell.str) := by
    simp only [rowLineL, List.map_map]
    congr 1
    apply List.map_congr_left
    intro c hc
    have hclean := hcols.2 c hc
    simp only [Function.comp_apply, csvField]
    rw [if_neg]
    rw [Bool.not_eq_true]
    exact (csvNeedsQuote_eq_false_iff c.data).mpr hclean
  have hmain : parseCsv (rows_to_csv columns rows)
      = columns :: rows.map (fun row => row.map cellString) := by
    have hdata : (rows_to_csv columns rows).data = rowsToCsvL columns rows := rfl
    have hjoined : rowsToCsvL columns rows
        = joinWith ['\n'] (((columns.map Cell.str) :: rows).map rowLineL) := by
      simp only [rowsToCsvL, List.map_cons]
      rw [hheader]
    have hall : ∀ row ∈ (columns.map Cell.str) :: rows,
        row ≠ [] ∧ ∀ cell ∈ row, cellIsText cell = true := by
      intro row hrow
      rcases List.mem_cons.mp hrow with rfl | hrow
      · constructor
        · simp [hcols.1]
        · intro cell hcell
          rcases List.mem_map.mp hcell with ⟨c, _, rfl⟩
          rfl
      · exact hrows row hrow
    have hparse := parseCsvAux_records ((columns.map Cell.str) :: rows) (by simp) hall
    simp only [parseCsv, hdata, hjoined, hparse]
    simp only [List.map_cons, List.map_map]
    congr 1
    · rw [List.map_congr_left
        (fun c _ => (rfl : (String.mk ∘ decodedL ∘ Cell.str) c = id c))]
      exact List.map_id columns
    · apply List.map_congr_left
      intro row _
      simp only [Function.comp_apply]
      rw [List.map_map]
      apply List.map_congr_left
      intro cell _
      cases cell <;> rfl
  refine ⟨hmain, ?_⟩
  rw [hmain]
  simp [List.map_map]

/-- Counterexample for C8: a non-string value (a Python list rendered
`"[1, 2]"` by `str`) contains the delimiter but is written unquoted, so
parsing splits it and the row's column count is not reconstructed. -/
theorem rows_to_csv_unquoted_counterexample :
    rows_to_csv ["c"] [[Cell.other "[1, 2]"]] = "c\n[1, 2]" ∧
    parseCsv (rows_to_csv ["c"] [[Cell.other "[1, 2]"]]) = [["c"], ["[1", " 2]"]] ∧
    (parseCsv (rows_to_csv ["c"] [[Cell.other "[1, 2]"]])).map List.length = [1, 2] ∧
    ([[Cell.other "[1, 2]"]].map List.length) = [1] := by
  refine ⟨by decide, by decide, by decide, by decide⟩

/-- Witness for C8 (amended) with quoting, an embedded delimiter, an
embedded quote and a null. -/
theorem rows_to_csv_roundtrip_witness :
    parseCsv (rows_to_csv ["a", "b"] [[Cell.str "x,\"y", Cell.null], [Cell.str "z", Cell.str ""]])
      = ["a", "b"] :: [[Cell.str "x,\"y", Cell.null], [Cell.str "z", Cell.str ""]].map
          (fun row => row.map cellString) :=
  (rows_to_csv_roundtrip ["a", "b"] [[Cell.str "x,\"y", Cell.null], [Cell.str "z", Cell.str ""]]
    ⟨by decide, by decide⟩ (by decide)).1
